import Mathlib

/-!
Verification of the dynamic-forms engine (Tonio993/dynamic-forms-app).

This file gives a shallow embedding, in Lean 4, of the core of the dynamic
form engine: the JSON-like value model, the Angular reactive-forms control
tree (`FormControl` / `FormGroup` / `FormArray`), the field-component and
error-message registries, the form builder, the value synchronizer
(`setFormValues`), list reorder/add operations of the subform component,
the text-input validator composition, and the reset/submit bookkeeping of
`DynamicFormComponent`.  Theorems at the end settle each claim about this
code.

Modelling conventions:
* JavaScript objects and `Map`s are association lists `List (String × α)`
  with insertion-order semantics: setting an existing key overwrites in
  place, setting a new key appends.
* Object identity of live form nodes is modelled through numeric ids
  carried by `group` and `array` nodes; builders allocate fresh ids from a
  counter threaded through the functions.
* `JSON.stringify` is modelled by an executable serializer; the engine
  only ever compares serializer output for equality.
* Angular framework behaviour invoked by the code (`patchValue`, `reset`,
  `Validators.required`, `Validators.minLength`, `FormBuilder.group`, ...)
  is embedded following Angular's documented semantics.
-/

set_option autoImplicit false

namespace DynForms

/-- JSON-compatible runtime values handled by the form engine.
`null` also stands for the JavaScript `undefined` stored in a control. -/
inductive Value : Type where
  | null : Value
  | bool : Bool → Value
  | num : Int → Value
  | str : String → Value
  | arr : List Value → Value
  | obj : List (String × Value) → Value
deriving Repr

/-- JavaScript truthiness of a value (`if (x)`). -/
def jsTruthy : Value → Bool
  | .null => false
  | .bool b => b
  | .num n => n ≠ 0
  | .str s => s ≠ ""
  | .arr _ => true
  | .obj _ => true

/-- Is the value a plain record (`typeof x === 'object' && x !== null &&
!Array.isArray(x)`)? -/
def isPlainRecord : Value → Bool
  | .obj _ => true
  | _ => false

/-- Lookup in a JS object / `Map`, first matching key. -/
def objGet {α : Type} : List (String × α) → String → Option α
  | [], _ => none
  | p :: rest, k => if p.1 = k then some p.2 else objGet rest k

/-- Key update in a JS object / `Map`: overwrite in place if the key is
present, append otherwise (JS insertion-order semantics; keys are unique
by construction). -/
def objSet {α : Type} : List (String × α) → String → α → List (String × α)
  | [], k, v => [(k, v)]
  | p :: rest, k, v =>
      if p.1 = k then (k, v) :: rest else p :: objSet rest k v

/-- Escape a character for a JSON string literal. -/
def jsonEscapeChar (c : Char) : String :=
  if c = '"' then "\\\""
  else if c = '\\' then "\\\\"
  else if c = '\n' then "\\n"
  else String.singleton c

/-- Escape a string for a JSON string literal. -/
def jsonEscape (s : String) : String :=
  String.join (s.toList.map jsonEscapeChar)

mutual

/-- Model of `JSON.stringify` on the value model. -/
def jsonStringify : Value → String
  | .null => "null"
  | .bool true => "true"
  | .bool false => "false"
  | .num n => toString n
  | .str s => "\"" ++ jsonEscape s ++ "\""
  | .arr xs => "[" ++ jsonStringifyList xs ++ "]"
  | .obj es => "\x7b" ++ jsonStringifyFields es ++ "\x7d"

/-- Comma-separated serialization of array elements. -/
def jsonStringifyList : List Value → String
  | [] => ""
  | [v] => jsonStringify v
  | v :: rest => jsonStringify v ++ "," ++ jsonStringifyList rest

/-- Comma-separated serialization of object fields. -/
def jsonStringifyFields : List (String × Value) → String
  | [] => ""
  | [(k, v)] => "\"" ++ jsonEscape k ++ "\":" ++ jsonStringify v
  | (k, v) :: rest =>
      "\"" ++ jsonEscape k ++ "\":" ++ jsonStringify v ++ "," ++ jsonStringifyFields rest

end

/-- JavaScript `String(x)` conversion, used by
`String(errorValue.message)` in `getFieldError`. -/
def jsDisplayString : Value → String
  | .null => "null"
  | .bool true => "true"
  | .bool false => "false"
  | .num n => toString n
  | .str s => s
  | .arr _ => ""
  | .obj _ => "[object Object]"

/-- The three Angular control shapes used by the engine
(`ControlType` in `base-field.component.ts`). -/
inductive ControlType : Type where
  | control : ControlType
  | group : ControlType
  | array : ControlType
deriving DecidableEq, Repr

/-- A live Angular `AbstractControl` tree.  `control` is a `FormControl`
holding a value, `group` a `FormGroup` with named children, `array` a
`FormArray` with ordered items.  `group` and `array` nodes carry a numeric
id standing for JavaScript object identity; `touched` is the control's
touched flag. -/
inductive Ctrl : Type where
  | control : Value → Bool → Ctrl
  | group : Nat → Bool → List (String × Ctrl) → Ctrl
  | array : Nat → Bool → List Ctrl → Ctrl
deriving Repr

mutual

/-- The `value` getter of an `AbstractControl`: primitive for a control,
record of child values for a group, ordered list for an array. -/
def ctrlValue : Ctrl → Value
  | .control v _ => v
  | .group _ _ cs => .obj (ctrlValueFields cs)
  | .array _ _ its => .arr (ctrlValueItems its)

/-- Values of the named children of a group. -/
def ctrlValueFields : List (String × Ctrl) → List (String × Value)
  | [] => []
  | (n, c) :: rest => (n, ctrlValue c) :: ctrlValueFields rest

/-- Values of the items of an array. -/
def ctrlValueItems : List Ctrl → List Value
  | [] => []
  | c :: rest => ctrlValue c :: ctrlValueItems rest

end

mutual

/-- Angular `patchValue` on a control tree.  A `FormControl` takes the new
value outright; a `FormGroup` patches each named child whose key appears
in the record and ignores other keys; a `FormArray` patches items
positionally for indices present in the incoming array.  A group or array
receiving a value of the wrong shape is left unchanged (the engine guards
all call sites with shape checks). -/
def patchCtrl : Ctrl → Value → Ctrl
  | .control _ t, v => .control v t
  | .group id t cs, .obj entries => .group id t (patchFields entries cs)
  | .group id t cs, _ => .group id t cs
  | .array id t its, .arr vs => .array id t (patchItems its vs)
  | .array id t its, _ => .array id t its

/-- Patch the named children of a group from a record. -/
def patchFields (entries : List (String × Value)) : List (String × Ctrl) → List (String × Ctrl)
  | [] => []
  | (n, c) :: rest =>
      (n, match objGet entries n with
          | some v => patchCtrl c v
          | none => c) :: patchFields entries rest

/-- Patch the items of an array positionally; surplus incoming values are
dropped, surplus existing items kept. -/
def patchItems : List Ctrl → List Value → List Ctrl
  | its, [] => its
  | [], _ :: _ => []
  | c :: cs, v :: vs => patchCtrl c v :: patchItems cs vs

end

mutual

/-- All node ids in a control tree, in preorder.  Two trees with the same
id list are made of the same live nodes. -/
def ctrlIds : Ctrl → List Nat
  | .control _ _ => []
  | .group id _ cs => id :: ctrlIdsFields cs
  | .array id _ its => id :: ctrlIdsItems its

/-- Ids of the named children of a group. -/
def ctrlIdsFields : List (String × Ctrl) → List Nat
  | [] => []
  | (_, c) :: rest => ctrlIds c ++ ctrlIdsFields rest

/-- Ids of the items of an array. -/
def ctrlIdsItems : List Ctrl → List Nat
  | [] => []
  | c :: rest => ctrlIds c ++ ctrlIdsItems rest

end

/-- The identity of a node: the id of a group or array node; a plain
`FormControl` is identified only through its position. -/
def ctrlTopId : Ctrl → Option Nat
  | .control _ _ => none
  | .group id _ _ => some id
  | .array id _ _ => some id

mutual

/-- Angular `reset()` on a control tree built by `fb.control` /
`fb.group` / `fb.array` without the `nonNullable` option: every
`FormControl` is set back to its `defaultValue`, which is `null` for such
controls (not the value they were created with), and every control is
marked pristine and untouched. -/
def resetCtrl : Ctrl → Ctrl
  | .control _ _ => .control .null false
  | .group id _ cs => .group id false (resetFields cs)
  | .array id _ its => .array id false (resetItems its)

/-- Reset the named children of a group. -/
def resetFields : List (String × Ctrl) → List (String × Ctrl)
  | [] => []
  | (n, c) :: rest => (n, resetCtrl c) :: resetFields rest

/-- Reset the items of an array. -/
def resetItems : List Ctrl → List Ctrl
  | [] => []
  | c :: rest => resetCtrl c :: resetItems rest

end

/-- Children of a `FormGroup` node (empty for other shapes). -/
def groupControls : Ctrl → List (String × Ctrl)
  | .group _ _ cs => cs
  | _ => []

/-- `form.get(name)` on a `FormGroup` node. -/
def getGroupControl (form : Ctrl) (name : String) : Option Ctrl :=
  objGet (groupControls form) name

/-- Replace the child control `name` of a `FormGroup` node, modelling an
in-place mutation of that child (ids elsewhere untouched). -/
def setGroupControl (form : Ctrl) (name : String) (c : Ctrl) : Ctrl :=
  match form with
  | .group id t cs => .group id t (cs.map (fun p => if p.1 = name then (p.1, c) else p))
  | other => other

/-- An Angular `ValidatorFn`: from a control value to a validation-errors
record (`none` = valid). -/
def ValidatorFn : Type := Value → Option (List (String × Value))

mutual

/-- `FormConfig` from `models/form-config.model.ts`: a form name and an
ordered field list. -/
inductive FormConfig : Type where
  | mk : String → List FormField → FormConfig

/-- `FormField` from `models/form-config.model.ts`.  The open `config`
record is embedded through the keys the engine reads:
`config.minLength` / `config.maxLength` / `config.pattern`
(text-like inputs), `config.formConfig` / `config.minItems` /
`config.maxItems` / `config.allowDragDrop` (subform input).  The
`validators` property (single validator or array) is normalized to a
list.  Constructor arguments, in order: name, type, required, minLength,
maxLength, pattern, validators, subform formConfig, minItems, maxItems,
allowDragDrop. -/
inductive FormField : Type where
  | mk : String → String → Bool →
      Option Int → Option Int → Option String → List ValidatorFn →
      Option FormConfig → Option Nat → Option Nat → Bool → FormField

end

/-- Display name of the form. -/
def FormConfig.name : FormConfig → String
  | .mk n _ => n

/-- Ordered field list of the form. -/
def FormConfig.fields : FormConfig → List FormField
  | .mk _ fs => fs

/-- Field name. -/
def FormField.name : FormField → String
  | .mk n _ _ _ _ _ _ _ _ _ _ => n

/-- Field type tag. -/
def FormField.ftype : FormField → String
  | .mk _ t _ _ _ _ _ _ _ _ _ => t

/-- Required flag (`field.required === true`). -/
def FormField.required : FormField → Bool
  | .mk _ _ r _ _ _ _ _ _ _ _ => r

/-- `config.minLength`, already passed through `Number(...)`. -/
def FormField.minLength : FormField → Option Int
  | .mk _ _ _ ml _ _ _ _ _ _ _ => ml

/-- `config.maxLength`, already passed through `Number(...)`. -/
def FormField.maxLength : FormField → Option Int
  | .mk _ _ _ _ ml _ _ _ _ _ _ => ml

/-- `config.pattern` as a string. -/
def FormField.pattern : FormField → Option String
  | .mk _ _ _ _ _ p _ _ _ _ _ => p

/-- The field's custom validators, normalized to a list. -/
def FormField.validators : FormField → List ValidatorFn
  | .mk _ _ _ _ _ _ vs _ _ _ _ => vs

/-- `config.formConfig`: the nested form configuration of a subform
field. -/
def FormField.subformConfig : FormField → Option FormConfig
  | .mk _ _ _ _ _ _ _ sc _ _ _ => sc

/-- `config.minItems` of a subform field. -/
def FormField.minItems : FormField → Option Nat
  | .mk _ _ _ _ _ _ _ _ mi _ _ => mi

/-- `config.maxItems` of a subform field. -/
def FormField.maxItems : FormField → Option Nat
  | .mk _ _ _ _ _ _ _ _ _ ma _ => ma

/-- `config.allowDragDrop !== false` of a subform field. -/
def FormField.allowDragDrop : FormField → Bool
  | .mk _ _ _ _ _ _ _ _ _ _ dd => dd

/-- Registration record for a field component
(`FieldComponentRegistration` in `field-component-registry.service.ts`).
Angular component classes are modelled by their class names; an absent
`initialValue` is `none` (the TS `undefined`). -/
structure FieldComponentRegistration : Type where
  fieldType : String
  component : String
  controlType : ControlType
  initialValue : Option Value

/-- State of `FieldComponentRegistryService`: the three maps plus the
lazy-initialization flag. -/
structure FieldRegistryState : Type where
  componentRegistry : List (String × String)
  controlTypeRegistry : List (String × ControlType)
  initialValueRegistry : List (String × Value)
  initialized : Bool

/-- Fresh service state: empty maps, not yet initialized. -/
def initialFieldRegistryState : FieldRegistryState :=
  ⟨[], [], [], false⟩

/-- `FieldComponentRegistryService.register`: sets the component and
control-type entries, sets the initial-value entry only when an initial
value is given, and — crucially — does not touch `initialized`. -/
def regRegister (s : FieldRegistryState) (r : FieldComponentRegistration) :
    FieldRegistryState :=
  { s with
    componentRegistry := objSet s.componentRegistry r.fieldType r.component
    controlTypeRegistry := objSet s.controlTypeRegistry r.fieldType r.controlType
    initialValueRegistry :=
      match r.initialValue with
      | some v => objSet s.initialValueRegistry r.fieldType v
      | none => s.initialValueRegistry }

/-- `FIELD_COMPONENT_CONFIGS` from `field-component.config.ts`: the
built-in field types with their component classes. -/
def FIELD_COMPONENT_CONFIGS : List (String × String) :=
  [("text", "TextInputComponent"),
   ("email", "EmailInputComponent"),
   ("number", "NumberInputComponent"),
   ("password", "PasswordInputComponent"),
   ("date", "DateInputComponent"),
   ("textarea", "TextareaInputComponent"),
   ("select", "SelectInputComponent"),
   ("radio", "RadioInputComponent"),
   ("checkbox", "CheckboxInputComponent")]

/-- `getControlTypeFromComponent`: instantiating the component class and
calling `getControlType()`.  Of the classes in the repository only
`SubformInputComponent` overrides the `BaseFieldComponent` default of
`'control'`, returning `'array'`. -/
def componentGetControlType (component : String) : ControlType :=
  if component = "SubformInputComponent" then .array else .control

/-- `getInitialValueFromComponent`: instantiating the component class and
calling `getInitialValue()`, mapping the `BaseFieldComponent` default
`null` to `undefined` (`none`).  Only `CheckboxInputComponent` overrides
it, returning `false`. -/
def componentGetInitialValue (component : String) : Option Value :=
  if component = "CheckboxInputComponent" then some (.bool false) else none

/-- `FieldComponentRegistryService.ensureInitialized`: on first use,
register every entry of `FIELD_COMPONENT_CONFIGS` (overwriting whatever
is already in the maps) and mark the registry initialized. -/
def ensureInit (s : FieldRegistryState) : FieldRegistryState :=
  if s.initialized then s
  else
    { FIELD_COMPONENT_CONFIGS.foldl
        (fun acc cfg =>
          regRegister acc
            ⟨cfg.1, cfg.2, componentGetControlType cfg.2,
             componentGetInitialValue cfg.2⟩) s
      with initialized := true }

/-- `FieldComponentRegistryService.get` (result component). -/
def regGet (s : FieldRegistryState) (fieldType : String) : Option String :=
  objGet (ensureInit s).componentRegistry fieldType

/-- `FieldComponentRegistryService.get` (stateful: the lookup also
commits the lazy initialization). -/
def regGetS (s : FieldRegistryState) (fieldType : String) :
    Option String × FieldRegistryState :=
  (regGet s fieldType, ensureInit s)

/-- `FieldComponentRegistryService.getControlType` (result). -/
def regControlType (s : FieldRegistryState) (fieldType : String) : Option ControlType :=
  objGet (ensureInit s).controlTypeRegistry fieldType

/-- `FieldComponentRegistryService.getInitialValue`: the registered value
if present, `null` otherwise. -/
def regInitialValue (s : FieldRegistryState) (fieldType : String) : Value :=
  match objGet (ensureInit s).initialValueRegistry fieldType with
  | some v => v
  | none => .null

/-- `DynamicFormComponent.createControlByType`: a `FormControl` seeded
with the given initial value when one was supplied (`initialValue !==
undefined ? initialValue : null`), an empty `FormGroup`, or an empty
`FormArray`.  Group and array nodes receive a fresh id from the counter. -/
def createControlByType (ct : ControlType) (initialValue : Option Value)
    (nid : Nat) : Ctrl × Nat :=
  match ct with
  | .control =>
      (.control (match initialValue with | some v => v | none => .null) false, nid)
  | .group => (.group nid false [], nid + 1)
  | .array => (.array nid false [], nid + 1)

/-- The loop body of `DynamicFormComponent.buildForm`: for one field,
skip it when no component is registered for its type; fall back to a
plain `fb.control(null)` when a component exists but no control type is
registered; otherwise create the control for the registered control type
seeded with the registry's initial value. -/
def buildFormStep (reg : FieldRegistryState)
    (acc : List (String × Ctrl) × Nat) (f : FormField) :
    List (String × Ctrl) × Nat :=
  match regGet reg f.ftype with
  | none => acc
  | some _ =>
      match regControlType reg f.ftype with
      | none => (objSet acc.1 f.name (.control .null false), acc.2)
      | some ct =>
          let (c, nid') := createControlByType ct (some (regInitialValue reg f.ftype)) acc.2
          (objSet acc.1 f.name c, nid')

/-- `DynamicFormComponent.buildForm`: build one control per field in
declared order (see `buildFormStep`), then wrap them in a fresh
`FormGroup`.  The registry is consulted through its lazily-initializing
lookups. -/
def buildForm (reg : FieldRegistryState) (cfg : FormConfig) (nid : Nat) :
    Ctrl × Nat :=
  let (controls, nid') := cfg.fields.foldl (buildFormStep reg) ([], nid)
  (.group nid' false controls, nid' + 1)

/-- The element mapping of the array branch of `setFormValues` phase 1:
`typeof item === 'object' && item !== null ? item : λ` — plain records
and arrays pass through (both have `typeof` `'object'`), anything else
becomes an empty record. -/
def mapArrayItem : Value → Value
  | .obj es => .obj es
  | .arr xs => .arr xs
  | _ => .obj []

/-- Phase 1 of `DynamicFormComponent.setFormValues`: build the
`formValues` record handed to `form.patchValue`.  Fields whose external
value is absent, `undefined` or `null` are skipped; array-typed fields
take the element-mapped array and are skipped for non-array values;
group-typed fields require a plain record; everything else passes the
value through. -/
def buildFormValuesStep (reg : FieldRegistryState)
    (values : List (String × Value)) (acc : List (String × Value))
    (f : FormField) : List (String × Value) :=
  match objGet values f.name with
  | none => acc
  | some .null => acc
  | some v =>
      match regControlType reg f.ftype with
      | none => objSet acc f.name v
      | some .array =>
          match v with
          | .arr items => objSet acc f.name (.arr (items.map mapArrayItem))
          | _ => acc
      | some .group =>
          if isPlainRecord v then objSet acc f.name v else acc
      | some .control => objSet acc f.name v

/-- The element mapping of `fb.group(record)` / `fb.array(list)`: each
property value is a control config.  A raw array uses FormBuilder's boxed
`[formState, validators]` syntax, so its head becomes the control value;
any other value becomes a `FormControl` holding it. -/
def fbControlOfConfig (v : Value) : Ctrl :=
  match v with
  | .arr xs => .control (xs.headD .null) false
  | v => .control v false

/-- One iteration of the subform-field loop in
`createFormGroupForSubformItem`: build the control config for one subform
field from the item value (`?? null` for plain controls, a seeded
`fb.group` for group-typed subfields, a seeded `fb.array` for array-typed
ones, a plain control for unregistered types). -/
def subformItemControlStep (reg : FieldRegistryState)
    (itemValue : List (String × Value)) (acc : List (String × Ctrl) × Nat)
    (subField : FormField) : List (String × Ctrl) × Nat :=
  let subFieldValue := objGet itemValue subField.name
  match regControlType reg subField.ftype with
  | some .control =>
      (objSet acc.1 subField.name (.control (subFieldValue.getD .null) false), acc.2)
  | some .group =>
      let groupValue :=
        match subFieldValue with
        | some (.obj es) => es
        | _ => []
      (objSet acc.1 subField.name
        (.group acc.2 false (groupValue.map (fun p => (p.1, fbControlOfConfig p.2)))),
       acc.2 + 1)
  | some .array =>
      let arrValue :=
        match subFieldValue with
        | some (.arr xs) => xs
        | _ => []
      (objSet acc.1 subField.name
        (.array acc.2 false (arrValue.map fbControlOfConfig)), acc.2 + 1)
  | none =>
      (objSet acc.1 subField.name (.control (subFieldValue.getD .null) false), acc.2)

/-- `DynamicFormComponent.createFormGroupForSubformItem`: `none` when the
field has no `config.formConfig`; otherwise a fresh `FormGroup` with one
child per subform field (see `subformItemControlStep`). -/
def createFormGroupForSubformItem (reg : FieldRegistryState) (f : FormField)
    (itemValue : List (String × Value)) (nid : Nat) : Option (Ctrl × Nat) :=
  match f.subformConfig with
  | none => none
  | some sub =>
      let (controls, nid') :=
        sub.fields.foldl (subformItemControlStep reg itemValue) ([], nid + 1)
      some (.group nid false controls, nid')

/-- The rebuild path of the array reconciliation (`arrayControl.clear()`
then one `createFormGroupForSubformItem` + `push` per plain-record
candidate element; non-record elements and a missing subform config
contribute nothing).  Written as direct recursion; the pushes of the
source loop build the same list front to back. -/
def rebuildItems (reg : FieldRegistryState) (f : FormField)
    (arrayValue : List Value) (nid : Nat) : List Ctrl × Nat :=
  match arrayValue with
  | [] => ([], nid)
  | item :: rest =>
      match item with
      | .obj es =>
          match createFormGroupForSubformItem reg f es nid with
          | some (g, nid') =>
              let (tail, nid'') := rebuildItems reg f rest nid'
              (g :: tail, nid'')
          | none => rebuildItems reg f rest nid
      | _ => rebuildItems reg f rest nid

/-- One step of the in-place patch loop of the array reconciliation:
plain-record candidate elements are `patchValue`d into the existing item
at the same position, other elements leave it untouched. -/
def patchItem (c : Ctrl) (v : Value) : Ctrl :=
  match v with
  | .obj es => patchCtrl c (.obj es)
  | _ => c

/-- The in-place patch loop (`for i < Math.min(length, length)`):
positional `patchItem`, keeping any surplus existing items. -/
def patchItemsPositional : List Ctrl → List Value → List Ctrl
  | its, [] => its
  | [], _ :: _ => []
  | c :: cs, v :: vs => patchItem c v :: patchItemsPositional cs vs

/-- The reconciliation decision of `setFormValues` for one `FormArray`:
if the existing list is empty or its length differs from the candidate's,
clear and rebuild item-by-item; otherwise compare the serialized current
value against the candidate and, when they differ, patch the existing
items in place positionally. -/
def reconcileItems (reg : FieldRegistryState) (f : FormField)
    (its : List Ctrl) (arrayValue : List Value) (nid : Nat) :
    List Ctrl × Nat :=
  if its.length = 0 ∨ its.length ≠ arrayValue.length then
    rebuildItems reg f arrayValue nid
  else
    let currentValues := ctrlValueItems its
    if jsonStringify (.arr currentValues) ≠ jsonStringify (.arr arrayValue) then
      (patchItemsPositional its arrayValue, nid)
    else (its, nid)

/-- The loop body of phase 2 of `setFormValues`: for an array-typed field
whose external value is truthy and an array, reconcile the corresponding
`FormArray` (if the form has one under this name; the TS cast `as
FormArray` is only ever reached on array controls in this engine). -/
def applyArrayFieldStep (reg : FieldRegistryState)
    (values : List (String × Value)) (acc : Ctrl × Nat) (f : FormField) :
    Ctrl × Nat :=
  if regControlType reg f.ftype = some ControlType.array then
    match objGet values f.name with
    | some v =>
        if jsTruthy v then
          match v with
          | .arr arrayValue =>
              match getGroupControl acc.1 f.name with
              | some (.array aid at' its) =>
                  let (newItems, nid') := reconcileItems reg f its arrayValue acc.2
                  (setGroupControl acc.1 f.name (.array aid at' newItems), nid')
              | _ => acc
          | _ => acc
        else acc
    | none => acc
  else acc

/-- `DynamicFormComponent.setFormValues`: phase 1 builds the shaped
`formValues` record and `patchValue`s it into the form (skipping
absent/`null` fields); phase 2 reconciles every array-typed field (see
`reconcileItems`); the closing `updateValueAndValidity` recomputes
validity and changes no value. -/
def setFormValues (reg : FieldRegistryState) (cfg : FormConfig)
    (form : Ctrl) (values : List (String × Value)) (nid : Nat) :
    Ctrl × Nat :=
  let formValues := cfg.fields.foldl (buildFormValuesStep reg values) []
  let form1 := patchCtrl form (.obj formValues)
  cfg.fields.foldl (applyArrayFieldStep reg values) (form1, nid)

/-- `SubformInputComponent.canAddItem`: `true` when there is no
`FormArray` yet; otherwise the current item count must be strictly below
`config.maxItems` when that bound is configured. -/
def canAddItem (f : FormField) (arr : Option (List Ctrl)) : Bool :=
  match arr with
  | none => true
  | some its =>
      match f.maxItems with
      | some m => its.length < m
      | none => true

/-- `SubformInputComponent.addItem`: refuse (no-op) when there is no
array, when `canAddItem` is false, or when the field has no subform
config; otherwise open the item dialog and, if it is confirmed with a
`FormGroup` (the `dialogResult`), push that group onto the array.  A
cancelled dialog (`none`) changes nothing. -/
def addItem (f : FormField) (arr : Option (List Ctrl))
    (dialogResult : Option Ctrl) : Option (List Ctrl) :=
  match arr with
  | none => none
  | some its =>
      if !canAddItem f (some its) then some its
      else
        match f.subformConfig with
        | none => some its
        | some _ =>
            match dialogResult with
            | some (.group gid gt gcs) => some (its ++ [.group gid gt gcs])
            | _ => some its

/-- `SubformInputComponent.dropItem`: ignore the drop when drag-and-drop
is disabled or the indices coincide; otherwise take the node at
`previousIndex`, remove it there and insert the same node at
`currentIndex`.  (The CDK only ever reports in-bounds indices; an
out-of-range source index leaves the array unchanged here.) -/
def dropItem (f : FormField) (its : List Ctrl)
    (previousIndex currentIndex : Nat) : List Ctrl :=
  if f.allowDragDrop = false then its
  else if previousIndex = currentIndex then its
  else
    match its.get? previousIndex with
    | some g => (its.eraseIdx previousIndex).insertIdx currentIndex g
    | none => its

/-- Angular `isEmptyInputValue`: `null`/`undefined`, the empty string, or
an empty array. -/
def isEmptyInputValue : Value → Bool
  | .null => true
  | .str s => s.length = 0
  | .arr xs => xs.isEmpty
  | _ => false

/-- Angular `hasValidLength`: the value has a numeric `length` property
(strings, arrays, or records with a numeric `length` field). -/
def hasValidLength : Value → Bool
  | .str _ => true
  | .arr _ => true
  | .obj es =>
      match objGet es "length" with
      | some (.num _) => true
      | _ => false
  | _ => false

/-- The numeric `length` property of a value (callers guard with
`hasValidLength`). -/
def valueLength : Value → Int
  | .str s => s.length
  | .arr xs => xs.length
  | .obj es =>
      match objGet es "length" with
      | some (.num n) => n
      | _ => 0
  | _ => 0

/-- `Validators.required`: fails with key `required` exactly on empty
input values. -/
def requiredValidator : ValidatorFn := fun v =>
  if isEmptyInputValue v then some [("required", .bool true)] else none

/-- `Validators.minLength(n)`: passes on empty input values and values
without a length; otherwise fails with key `minlength` when the length is
below `n`. -/
def minLengthValidator (n : Int) : ValidatorFn := fun v =>
  if isEmptyInputValue v || !hasValidLength v then none
  else if valueLength v < n then
    some [("minlength", .obj [("requiredLength", .num n), ("actualLength", .num (valueLength v))])]
  else none

/-- `Validators.maxLength(n)`: fails with key `maxlength` when the value
has a length above `n`. -/
def maxLengthValidator (n : Int) : ValidatorFn := fun v =>
  if hasValidLength v && valueLength v > n then
    some [("maxlength", .obj [("requiredLength", .num n), ("actualLength", .num (valueLength v))])]
  else none

/-- `Validators.pattern(p)`: passes on empty input values; otherwise
fails with key `pattern` unless the value matches the regular expression.
Regular-expression matching itself is a parameter of the embedding. -/
def patternValidator (test : Value → Bool) (p : String) : ValidatorFn := fun v =>
  if isEmptyInputValue v then none
  else if test v then none
  else some [("pattern", .obj [("requiredPattern", .str p), ("actualValue", v)])]

/-- Merge one validator result into the accumulated errors record
(Angular's `Object.assign`-based merge). -/
def mergeErrors (acc : List (String × Value)) (e : List (String × Value)) :
    List (String × Value) :=
  e.foldl (fun a p => objSet a p.1 p.2) acc

/-- Run a composed validator list on a value (Angular `Validators.compose`
followed by `updateValueAndValidity`): every validator runs, all failures
are merged into one errors record, and an empty record becomes `none`. -/
def runValidators (vs : List ValidatorFn) (v : Value) :
    Option (List (String × Value)) :=
  let merged := vs.foldl
    (fun acc f => match f v with
      | none => acc
      | some es => mergeErrors acc es) []
  if merged.isEmpty then none else some merged

/-- `TextInputComponent.ngOnInit`: the validator list attached to a text
field — `required` when flagged, then `minLength` / `maxLength` /
`pattern` for the configured constraint keys (an empty pattern string is
falsy and adds nothing), then the field's custom validators.
`regexTest p` is the matching function of the compiled pattern `p`. -/
def textInputValidators (regexTest : String → Value → Bool) (f : FormField) :
    List ValidatorFn :=
  (if f.required then [requiredValidator] else [])
  ++ (match f.minLength with
      | some n => [minLengthValidator n]
      | none => [])
  ++ (match f.maxLength with
      | some n => [maxLengthValidator n]
      | none => [])
  ++ (match f.pattern with
      | some p => if p ≠ "" then [patternValidator (regexTest p) p] else []
      | none => [])
  ++ f.validators

/-- An error-message function: from the full errors record and the field
label to a display string (`ErrorMessageFunction`). -/
def ErrMsgFn : Type := List (String × Value) → String → String

/-- State of `ErrorMessageRegistryService`: the message map plus the
lazy-initialization flag. -/
structure ErrMsgState : Type where
  errorMessageMap : List (String × ErrMsgFn)
  initialized : Bool

/-- Fresh service state. -/
def initialErrMsgState : ErrMsgState := ⟨[], false⟩

/-- `ErrorMessageRegistryService.register`. -/
def emrRegister (s : ErrMsgState) (key : String) (fn : ErrMsgFn) : ErrMsgState :=
  { s with errorMessageMap := objSet s.errorMessageMap key fn }

/-- Modelled from the spec: `ERROR_MESSAGE_CONFIGS`
(`error-message.config.ts`) is not under `src/`; per §4.6 and §2 of the
spec it maps the standard validation-failure keys to display-string
functions, and the equivalent explicit registrations in
`registry-initializers.ts` fix the exact keys and message texts used
here. -/
def ERROR_MESSAGE_CONFIGS : List (String × ErrMsgFn) :=
  [("required", fun _ label => label ++ " is required"),
   ("email", fun _ _ => "Invalid email address"),
   ("min", fun errors _ =>
      "Minimum value is " ++
        jsDisplayString ((objGet errors "min").bind
          (fun d => match d with | .obj es => objGet es "min" | _ => none) |>.getD .null)),
   ("max", fun errors _ =>
      "Maximum value is " ++
        jsDisplayString ((objGet errors "max").bind
          (fun d => match d with | .obj es => objGet es "max" | _ => none) |>.getD .null)),
   ("minlength", fun errors _ =>
      "Minimum length is " ++
        jsDisplayString ((objGet errors "minlength").bind
          (fun d => match d with | .obj es => objGet es "requiredLength" | _ => none) |>.getD .null)
        ++ " characters"),
   ("maxlength", fun errors _ =>
      "Maximum length is " ++
        jsDisplayString ((objGet errors "maxlength").bind
          (fun d => match d with | .obj es => objGet es "requiredLength" | _ => none) |>.getD .null)
        ++ " characters"),
   ("pattern", fun _ _ => "Invalid format"),
   ("notANumber", fun _ _ => "Must be a valid number")]

/-- `ErrorMessageRegistryService.ensureInitialized`: on first use,
register every entry of `ERROR_MESSAGE_CONFIGS`. -/
def emrEnsureInit (s : ErrMsgState) : ErrMsgState :=
  if s.initialized then s
  else
    { ERROR_MESSAGE_CONFIGS.foldl (fun acc cfg => emrRegister acc cfg.1 cfg.2) s
      with initialized := true }

/-- `ErrorMessageRegistryService.getErrorMessage`: after ensuring
initialization, apply the registered function for the key, or return
`null` when none is registered.  The returned state carries the committed
lazy initialization. -/
def getErrorMessage (s : ErrMsgState) (errorKey : String)
    (errors : List (String × Value)) (fieldLabel : String) :
    Option String × ErrMsgState :=
  let s' := emrEnsureInit s
  match objGet s'.errorMessageMap errorKey with
  | none => (none, s')
  | some fn => (some (fn errors fieldLabel), s')

/-- The key loop of `DynamicFormComponent.getFieldError`: for each error
key in record order, a registered message (truthy, i.e. non-empty) wins;
otherwise a string-valued detail for that same key is returned verbatim;
otherwise a record detail's `message` property is stringified; otherwise
the next key is tried.  No key yielding a message gives the empty
string. -/
def getFieldErrorLoop (s : ErrMsgState) (errors : List (String × Value))
    (fieldLabel : String) : List String → String × ErrMsgState
  | [] => ("", s)
  | k :: rest =>
      let (msg?, s') := getErrorMessage s k errors fieldLabel
      match msg? with
      | some msg =>
          if msg ≠ "" then (msg, s')
          else
            match objGet errors k with
            | some (.str sv) => (sv, s')
            | some (.obj es) =>
                match objGet es "message" with
                | some m => (jsDisplayString m, s')
                | none => getFieldErrorLoop s' errors fieldLabel rest
            | _ => getFieldErrorLoop s' errors fieldLabel rest
      | none =>
          match objGet errors k with
          | some (.str sv) => (sv, s')
          | some (.obj es) =>
              match objGet es "message" with
              | some m => (jsDisplayString m, s')
              | none => getFieldErrorLoop s' errors fieldLabel rest
          | _ => getFieldErrorLoop s' errors fieldLabel rest

/-- `DynamicFormComponent.getFieldError`: empty string when the control
is missing, carries no errors object, or is untouched; otherwise resolve
over the error keys in record order (see `getFieldErrorLoop`). -/
def getFieldError (s : ErrMsgState)
    (ctrlErrors : Option (List (String × Value))) (touched : Bool)
    (fieldLabel : String) : String × ErrMsgState :=
  match ctrlErrors, touched with
  | some errors, true => getFieldErrorLoop s errors fieldLabel (errors.map (·.1))
  | _, _ => ("", s)

/-- The signal state of `DynamicFormComponent` that the build/apply
effects and the submit/reset actions operate on. -/
structure DynFormState : Type where
  dynamicForm : Option Ctrl
  formData : List (String × Value)
  formErrors : List (String × List (String × Value))
  formValuesApplied : Bool
  lastFormValuesHash : String

/-- Component state before any effect has run. -/
def initialDynFormState : DynFormState :=
  ⟨none, [], [], false, ""⟩

/-- The config effect of the `DynamicFormComponent` constructor: when a
config is present, (re)build the form and mark that no values have been
applied to this build. -/
def configEffect (reg : FieldRegistryState) (cfg : Option FormConfig)
    (s : DynFormState) (nid : Nat) : DynFormState × Nat :=
  match cfg with
  | none => (s, nid)
  | some config =>
      let (form, nid') := buildForm reg config nid
      ({ s with dynamicForm := some form, formValuesApplied := false }, nid')

/-- The `formValues` effect of the `DynamicFormComponent` constructor:
skip when values, form or config are missing or the values record is
empty; otherwise apply `setFormValues` exactly when the serialized values
differ from the last applied hash or the current build has not received
values yet, recording the new hash and the applied flag.  The returned
`Bool` reports whether an apply was performed. -/
def formValuesEffect (reg : FieldRegistryState) (cfg : Option FormConfig)
    (values : Option (List (String × Value))) (s : DynFormState)
    (nid : Nat) : DynFormState × Nat × Bool :=
  match values, s.dynamicForm, cfg with
  | some vs, some form, some config =>
      if vs.isEmpty then (s, nid, false)
      else
        let valuesHash := jsonStringify (.obj vs)
        if valuesHash ≠ s.lastFormValuesHash ∨ s.formValuesApplied = false then
          let (form', nid') := setFormValues reg config form vs nid
          ({ s with
              dynamicForm := some form'
              formValuesApplied := true
              lastFormValuesHash := valuesHash }, nid', true)
        else (s, nid, false)
  | _, _, _ => (s, nid, false)

/-- `DynamicFormComponent.resetForm`: `form?.reset()` plus clearing the
submitted data and the collected errors; the form group object itself is
kept (no rebuild). -/
def resetForm (s : DynFormState) : DynFormState :=
  { s with
    dynamicForm := s.dynamicForm.map resetCtrl
    formData := []
    formErrors := [] }

/-- The per-key fallback of `getFieldErrorLoop`, as a function: a string
detail is used verbatim, a record detail yields its stringified `message`
property when present, anything else yields no message. -/
def fallbackDetail : Value → Option String
  | .str sv => some sv
  | .obj es => (objGet es "message").map jsDisplayString
  | _ => none

mutual

/-- Every `FormControl` in the tree holds `null`. -/
def allValuesNull : Ctrl → Bool
  | .control .null _ => true
  | .control _ _ => false
  | .group _ _ cs => allValuesNullFields cs
  | .array _ _ its => allValuesNullItems its

/-- `allValuesNull` over the named children of a group. -/
def allValuesNullFields : List (String × Ctrl) → Bool
  | [] => true
  | (_, c) :: rest => allValuesNull c && allValuesNullFields rest

/-- `allValuesNull` over the items of an array. -/
def allValuesNullItems : List Ctrl → Bool
  | [] => true
  | c :: rest => allValuesNull c && allValuesNullItems rest

end

mutual

/-- Every control in the tree is untouched. -/
def allUntouched : Ctrl → Bool
  | .control _ t => !t
  | .group _ t cs => !t && allUntouchedFields cs
  | .array _ t its => !t && allUntouchedItems its

/-- `allUntouched` over the named children of a group. -/
def allUntouchedFields : List (String × Ctrl) → Bool
  | [] => true
  | (_, c) :: rest => allUntouched c && allUntouchedFields rest

/-- `allUntouched` over the items of an array. -/
def allUntouchedItems : List Ctrl → Bool
  | [] => true
  | c :: rest => allUntouched c && allUntouchedItems rest

end

/-! ### Helper lemmas -/

theorem objGet_objSet_self {α : Type} (m : List (String × α)) (k : String) (v : α) :
    objGet (objSet m k v) k = some v := by
  induction m with
  | nil => simp [objSet, objGet]
  | cons p rest ih =>
      by_cases hp : p.1 = k
      · simp [objSet, objGet, hp]
      · simp [objSet, objGet, hp, ih]

theorem objGet_objSet_ne {α : Type} (m : List (String × α)) (k k' : String) (v : α)
    (h : k' ≠ k) : objGet (objSet m k v) k' = objGet m k' := by
  induction m with
  | nil => simp [objSet, objGet, Ne.symm h]
  | cons p rest ih =>
      by_cases hp : p.1 = k
      · subst hp
        simp [objSet, objGet, Ne.symm h]
      · by_cases hp' : p.1 = k'
        · simp [objSet, objGet, hp, hp', h]
        · simp [objSet, objGet, hp, hp', ih]

theorem objSet_of_not_mem {α : Type} (m : List (String × α)) (k : String) (v : α)
    (h : ∀ p ∈ m, p.1 ≠ k) : objSet m k v = m ++ [(k, v)] := by
  induction m with
  | nil => simp [objSet]
  | cons p rest ih =>
      have hp : p.1 ≠ k := h p (by simp)
      simp only [objSet, if_neg hp, List.cons_append, List.cons.injEq, true_and]
      exact ih (fun q hq => h q (by simp [hq]))

mutual

theorem patchCtrl_ids : ∀ (c : Ctrl) (v : Value), ctrlIds (patchCtrl c v) = ctrlIds c
  | .control _ _, _ => rfl
  | .group id t cs, v => by
      cases v <;> simp only [patchCtrl, ctrlIds]
      rw [patchFields_ids]
  | .array id t its, v => by
      cases v <;> simp only [patchCtrl, ctrlIds]
      rw [patchItems_ids]

theorem patchFields_ids : ∀ (entries : List (String × Value)) (cs : List (String × Ctrl)),
    ctrlIdsFields (patchFields entries cs) = ctrlIdsFields cs
  | _, [] => rfl
  | entries, (n, c) :: rest => by
      simp only [patchFields, ctrlIdsFields]
      rw [patchFields_ids entries rest]
      cases h : objGet entries n <;> simp [patchCtrl_ids]

theorem patchItems_ids : ∀ (its : List Ctrl) (vs : List Value),
    ctrlIdsItems (patchItems its vs) = ctrlIdsItems its
  | _, [] => by simp [patchItems]
  | [], _ :: _ => rfl
  | c :: cs, v :: vs => by
      simp only [patchItems, ctrlIdsItems]
      rw [patchCtrl_ids c v, patchItems_ids cs vs]

end

mutual

theorem patchCtrl_idem : ∀ (c : Ctrl) (v : Value),
    patchCtrl (patchCtrl c v) v = patchCtrl c v
  | .control _ _, _ => rfl
  | .group id t cs, v => by
      cases v <;> simp only [patchCtrl]
      rw [patchFields_idem]
  | .array id t its, v => by
      cases v <;> simp only [patchCtrl]
      rw [patchItems_idem]

theorem patchFields_idem : ∀ (entries : List (String × Value)) (cs : List (String × Ctrl)),
    patchFields entries (patchFields entries cs) = patchFields entries cs
  | _, [] => rfl
  | entries, (n, c) :: rest => by
      simp only [patchFields]
      rw [patchFields_idem entries rest]
      cases h : objGet entries n <;> simp [h, patchCtrl_idem]

theorem patchItems_idem : ∀ (its : List Ctrl) (vs : List Value),
    patchItems (patchItems its vs) vs = patchItems its vs
  | _, [] => by simp [patchItems]
  | [], _ :: _ => rfl
  | c :: cs, v :: vs => by
      simp only [patchItems]
      rw [patchCtrl_idem c v, patchItems_idem cs vs]

end

theorem patchItems_length : ∀ (its : List Ctrl) (vs : List Value),
    (patchItems its vs).length = its.length
  | _, [] => by simp [patchItems]
  | [], _ :: _ => rfl
  | c :: cs, v :: vs => by
      simp only [patchItems, List.length_cons]
      rw [patchItems_length cs vs]

theorem patchItemsPositional_length : ∀ (its : List Ctrl) (vs : List Value),
    (patchItemsPositional its vs).length = its.length
  | _, [] => by simp [patchItemsPositional]
  | [], _ :: _ => rfl
  | c :: cs, v :: vs => by
      simp only [patchItemsPositional, List.length_cons]
      rw [patchItemsPositional_length cs vs]

/-- On all-record candidate lists the unguarded positional patch of
`FormArray.patchValue` and the record-guarded patch loop of
`setFormValues` agree. -/
theorem patchItems_eq_positional_of_records :
    ∀ (its : List Ctrl) (vs : List Value), (∀ v ∈ vs, isPlainRecord v) →
      patchItems its vs = patchItemsPositional its vs
  | _, [], _ => by simp [patchItems, patchItemsPositional]
  | [], _ :: _, _ => rfl
  | c :: cs, v :: vs, h => by
      have hv : isPlainRecord v := h v (by simp)
      simp only [patchItems, patchItemsPositional]
      rw [patchItems_eq_positional_of_records cs vs (fun w hw => h w (by simp [hw]))]
      cases v <;> simp [isPlainRecord, patchItem] at hv ⊢

/-- Positional patching twice with the same record list is the same as
patching once. -/
theorem patchItemsPositional_idem :
    ∀ (its : List Ctrl) (vs : List Value),
      patchItemsPositional (patchItemsPositional its vs) vs = patchItemsPositional its vs
  | _, [] => by simp [patchItemsPositional]
  | [], _ :: _ => rfl
  | c :: cs, v :: vs => by
      simp only [patchItemsPositional]
      rw [patchItemsPositional_idem cs vs]
      cases v <;> simp [patchItem, patchCtrl_idem]

/-- `mapArrayItem` is the identity on all-record arrays. -/
theorem map_mapArrayItem_of_records (vs : List Value)
    (h : ∀ v ∈ vs, isPlainRecord v) : vs.map mapArrayItem = vs := by
  induction vs with
  | nil => rfl
  | cons v rest ih =>
      have hv : isPlainRecord v := h v (by simp)
      simp only [List.map_cons]
      rw [ih (fun w hw => h w (by simp [hw]))]
      cases v <;> first
        | rfl
        | simp [isPlainRecord] at hv

/-- Ids are preserved by the record-guarded positional patch loop. -/
theorem patchItemsPositional_ids :
    ∀ (its : List Ctrl) (vs : List Value),
      ctrlIdsItems (patchItemsPositional its vs) = ctrlIdsItems its
  | _, [] => by simp [patchItemsPositional]
  | [], _ :: _ => rfl
  | c :: cs, v :: vs => by
      simp only [patchItemsPositional, ctrlIdsItems]
      rw [patchItemsPositional_ids cs vs]
      cases v <;> simp [patchItem, patchCtrl_ids]

/-- A phase-1 step for a field with an absent or `null` external value
is the identity. -/
theorem buildFormValuesStep_of_null (reg : FieldRegistryState)
    (values : List (String × Value)) (acc : List (String × Value))
    (f : FormField)
    (hv : objGet values f.name = none ∨ objGet values f.name = some .null) :
    buildFormValuesStep reg values acc f = acc := by
  rcases hv with h | h <;> simp [buildFormValuesStep, h]

/-- A phase-1 step never records a key other than its field's name. -/
theorem objGet_buildFormValuesStep_ne (reg : FieldRegistryState)
    (values : List (String × Value)) (acc : List (String × Value))
    (f : FormField) (k : String) (hk : f.name ≠ k)
    (hacc : objGet acc k = none) :
    objGet (buildFormValuesStep reg values acc f) k = none := by
  have hset : ∀ w : Value, objGet (objSet acc f.name w) k = none := by
    intro w
    rw [objGet_objSet_ne acc f.name k w (Ne.symm hk)]
    exact hacc
  unfold buildFormValuesStep
  repeat' split
  all_goals first
    | exact hacc
    | exact hset _

/-- Phase 1 of `setFormValues` never records a key whose external value
is absent or `null`. -/
theorem objGet_buildFormValues_of_null (reg : FieldRegistryState)
    (values : List (String × Value)) (k : String)
    (hv : objGet values k = none ∨ objGet values k = some .null) :
    ∀ (fields : List FormField) (acc : List (String × Value)),
      objGet acc k = none →
      objGet (fields.foldl (buildFormValuesStep reg values) acc) k = none := by
  intro fields
  induction fields with
  | nil => intro acc hacc; simpa using hacc
  | cons f rest ih =>
      intro acc hacc
      simp only [List.foldl_cons]
      apply ih
      by_cases hk : f.name = k
      · rw [buildFormValuesStep_of_null reg values acc f (hk ▸ hv)]
        exact hacc
      · exact objGet_buildFormValuesStep_ne reg values acc f k hk hacc

/-- Patching a group from a record that does not mention key `k` leaves
the child control at `k` unchanged. -/
theorem objGet_patchFields_of_not_mem (entries : List (String × Value))
    (k : String) (h : objGet entries k = none) :
    ∀ cs : List (String × Ctrl), objGet (patchFields entries cs) k = objGet cs k := by
  intro cs
  induction cs with
  | nil => rfl
  | cons p rest ih =>
      obtain ⟨n, c⟩ := p
      by_cases hn : n = k
      · subst hn
        simp [patchFields, objGet, h]
      · simp [patchFields, objGet, hn, ih]

/-- `patchValue` with a record not mentioning key `k` leaves the child
control at `k` unchanged, whatever the shape of the target control. -/
theorem getGroupControl_patchCtrl_of_not_mem (form : Ctrl)
    (fv : List (String × Value)) (k : String) (h : objGet fv k = none) :
    getGroupControl (patchCtrl form (.obj fv)) k = getGroupControl form k := by
  cases form with
  | control v t => rfl
  | group id t cs =>
      simp [patchCtrl, getGroupControl, groupControls,
        objGet_patchFields_of_not_mem fv k h]
  | array id t its => rfl

/-- Replacing the child at key `k` leaves lookups at other keys
unchanged. -/
theorem getGroupControl_setGroupControl_ne (form : Ctrl) (k k' : String)
    (c : Ctrl) (h : k' ≠ k) :
    getGroupControl (setGroupControl form k c) k' = getGroupControl form k' := by
  cases form with
  | control v t => rfl
  | group id t cs =>
      have hkk : k ≠ k' := Ne.symm h
      simp only [setGroupControl, getGroupControl, groupControls]
      induction cs with
      | nil => rfl
      | cons p rest ih =>
          by_cases hp : p.1 = k
          · simp [objGet, hp, hkk, ih]
          · by_cases hq : p.1 = k'
            · simp [objGet, hp, hq, h]
            · simp [objGet, hp, hq, ih]
  | array id t its => rfl

/-- A phase-2 step either leaves the form unchanged or replaces only the
child named by its field. -/
theorem applyArrayFieldStep_shape (reg : FieldRegistryState)
    (values : List (String × Value)) (acc : Ctrl × Nat) (f : FormField) :
    (applyArrayFieldStep reg values acc f).1 = acc.1 ∨
      ∃ c, (applyArrayFieldStep reg values acc f).1 = setGroupControl acc.1 f.name c := by
  unfold applyArrayFieldStep
  repeat' split
  all_goals first
    | exact Or.inr ⟨_, rfl⟩
    | exact Or.inl rfl

/-- A phase-2 step for a field whose external value is absent or `null`
is the identity. -/
theorem applyArrayFieldStep_of_null (reg : FieldRegistryState)
    (values : List (String × Value)) (acc : Ctrl × Nat) (f : FormField)
    (hv : objGet values f.name = none ∨ objGet values f.name = some .null) :
    applyArrayFieldStep reg values acc f = acc := by
  rcases hv with h | h <;> simp [applyArrayFieldStep, h, jsTruthy]

/-- Phase 2 of `setFormValues` leaves the child control at any key with
an absent or `null` external value unchanged. -/
theorem getGroupControl_foldArray_of_null (reg : FieldRegistryState)
    (values : List (String × Value)) (k : String)
    (hv : objGet values k = none ∨ objGet values k = some .null) :
    ∀ (fields : List FormField) (form : Ctrl) (nid : Nat),
      getGroupControl
        ((fields.foldl (applyArrayFieldStep reg values) (form, nid)).1) k =
      getGroupControl form k := by
  intro fields
  induction fields with
  | nil => intro form nid; rfl
  | cons f rest ih =>
      intro form nid
      simp only [List.foldl_cons]
      by_cases hk : f.name = k
      · subst hk
        rw [applyArrayFieldStep_of_null reg values (form, nid) f hv]
        exact ih form nid
      · rcases applyArrayFieldStep_shape reg values (form, nid) f with hid | ⟨c, hset⟩
        · have : applyArrayFieldStep reg values (form, nid) f =
              ((applyArrayFieldStep reg values (form, nid) f).1,
               (applyArrayFieldStep reg values (form, nid) f).2) := rfl
          rw [this, hid]
          rw [ih]
        · have : applyArrayFieldStep reg values (form, nid) f =
              ((applyArrayFieldStep reg values (form, nid) f).1,
               (applyArrayFieldStep reg values (form, nid) f).2) := rfl
          rw [this, hset]
          rw [ih]
          exact getGroupControl_setGroupControl_ne form f.name k c (Ne.symm hk)

/-- The fresh-id counter never decreases across a subform-field step. -/
theorem subformItemControlStep_mono (reg : FieldRegistryState)
    (itemValue : List (String × Value)) (acc : List (String × Ctrl) × Nat)
    (subField : FormField) :
    acc.2 ≤ (subformItemControlStep reg itemValue acc subField).2 := by
  unfold subformItemControlStep
  repeat' split
  all_goals simp

/-- The fresh-id counter never decreases across the subform-field loop. -/
theorem foldl_subformItemControlStep_mono (reg : FieldRegistryState)
    (itemValue : List (String × Value)) :
    ∀ (fields : List FormField) (acc : List (String × Ctrl) × Nat),
      acc.2 ≤ (fields.foldl (subformItemControlStep reg itemValue) acc).2 := by
  intro fields
  induction fields with
  | nil => intro acc; exact le_refl _
  | cons g rest ih =>
      intro acc
      simp only [List.foldl_cons]
      exact le_trans (subformItemControlStep_mono reg itemValue acc g) (ih _)

/-- With a subform config present, `createFormGroupForSubformItem`
produces a fresh untouched group carrying the id it was given, and
strictly advances the id counter. -/
theorem createFormGroupForSubformItem_spec (reg : FieldRegistryState)
    (f : FormField) (sub : FormConfig) (es : List (String × Value)) (n : Nat)
    (hsub : f.subformConfig = some sub) :
    ∃ controls n', createFormGroupForSubformItem reg f es n =
      some (.group n false controls, n') ∧ n < n' := by
  refine ⟨(sub.fields.foldl (subformItemControlStep reg es) ([], n + 1)).1,
          (sub.fields.foldl (subformItemControlStep reg es) ([], n + 1)).2, ?_, ?_⟩
  · simp [createFormGroupForSubformItem, hsub]
  · exact lt_of_lt_of_le (Nat.lt_succ_self n)
      (foldl_subformItemControlStep_mono reg es sub.fields ([], n + 1))

/-- With a subform config and an all-record candidate list, the rebuild
path produces exactly one fresh group per candidate element, every one
carrying an id at or above the starting counter. -/
theorem rebuildItems_spec (reg : FieldRegistryState) (f : FormField)
    (sub : FormConfig) (hsub : f.subformConfig = some sub) :
    ∀ (cand : List Value) (n : Nat), (∀ v ∈ cand, isPlainRecord v) →
      (rebuildItems reg f cand n).1.length = cand.length ∧
      n ≤ (rebuildItems reg f cand n).2 ∧
      ∀ g ∈ (rebuildItems reg f cand n).1,
        ∃ j cs, g = Ctrl.group j false cs ∧ n ≤ j := by
  intro cand
  induction cand with
  | nil => intro n _; simp [rebuildItems]
  | cons item rest ih =>
      intro n hobj
      have hitem : isPlainRecord item := hobj item (by simp)
      cases item <;> simp [isPlainRecord] at hitem
      case obj es =>
        obtain ⟨controls, n', hcr, hlt⟩ :=
          createFormGroupForSubformItem_spec reg f sub es n hsub
        obtain ⟨ihlen, ihmono, ihmem⟩ :=
          ih n' (fun v hv => hobj v (by simp [hv]))
        refine ⟨?_, ?_, ?_⟩
        · simp [rebuildItems, hcr, ihlen]
        · simp only [rebuildItems, hcr]
          exact le_trans (le_of_lt hlt) ihmono
        · intro g hg
          simp only [rebuildItems, hcr, List.mem_cons] at hg
          rcases hg with hg | hg
          · exact ⟨n, controls, hg, le_refl n⟩
          · obtain ⟨j, cs, hgj, hj⟩ := ihmem g hg
            exact ⟨j, cs, hgj, le_trans (le_of_lt hlt) hj⟩

/-- `setFormValues` on a one-field form holding a single `FormArray`: the
form keeps its group node and the array keeps its node; phase 1 patches
the existing items positionally with the element-mapped candidate and
phase 2 reconciles the result against the raw candidate. -/
theorem setFormValues_single_array (reg : FieldRegistryState)
    (cname : String) (f : FormField) (fid aid nid : Nat) (ftch atch : Bool)
    (its : List Ctrl) (cand : List Value)
    (hct : regControlType reg f.ftype = some ControlType.array) :
    setFormValues reg (.mk cname [f])
        (.group fid ftch [(f.name, .array aid atch its)])
        [(f.name, .arr cand)] nid =
      (Ctrl.group fid ftch
        [(f.name, Ctrl.array aid atch
            (reconcileItems reg f (patchItems its (cand.map mapArrayItem)) cand nid).1)],
       (reconcileItems reg f (patchItems its (cand.map mapArrayItem)) cand nid).2) := by
  unfold setFormValues
  simp only [FormConfig.fields, List.foldl_cons, List.foldl_nil]
  rw [show buildFormValuesStep reg [(f.name, .arr cand)] [] f
      = [(f.name, .arr (cand.map mapArrayItem))] by
    simp [buildFormValuesStep, objGet, hct, objSet]]
  rw [show patchCtrl (.group fid ftch [(f.name, .array aid atch its)])
        (.obj [(f.name, .arr (cand.map mapArrayItem))])
      = .group fid ftch [(f.name, .array aid atch (patchItems its (cand.map mapArrayItem)))] by
    simp [patchCtrl, patchFields, objGet]]
  simp [applyArrayFieldStep, hct, objGet, jsTruthy, getGroupControl,
    groupControls, setGroupControl]

mutual

theorem resetCtrl_ids : ∀ c : Ctrl, ctrlIds (resetCtrl c) = ctrlIds c
  | .control _ _ => rfl
  | .group id t cs => by
      simp only [resetCtrl, ctrlIds]
      rw [resetFields_ids cs]
  | .array id t its => by
      simp only [resetCtrl, ctrlIds]
      rw [resetItems_ids its]

theorem resetFields_ids : ∀ cs : List (String × Ctrl),
    ctrlIdsFields (resetFields cs) = ctrlIdsFields cs
  | [] => rfl
  | (n, c) :: rest => by
      simp only [resetFields, ctrlIdsFields]
      rw [resetCtrl_ids c, resetFields_ids rest]

theorem resetItems_ids : ∀ its : List Ctrl,
    ctrlIdsItems (resetItems its) = ctrlIdsItems its
  | [] => rfl
  | c :: rest => by
      simp only [resetItems, ctrlIdsItems]
      rw [resetCtrl_ids c, resetItems_ids rest]

end

mutual

theorem resetCtrl_allValuesNull : ∀ c : Ctrl, allValuesNull (resetCtrl c) = true
  | .control _ _ => rfl
  | .group id t cs => by
      simp only [resetCtrl, allValuesNull]
      exact resetFields_allValuesNull cs
  | .array id t its => by
      simp only [resetCtrl, allValuesNull]
      exact resetItems_allValuesNull its

theorem resetFields_allValuesNull : ∀ cs : List (String × Ctrl),
    allValuesNullFields (resetFields cs) = true
  | [] => rfl
  | (n, c) :: rest => by
      simp only [resetFields, allValuesNullFields, Bool.and_eq_true]
      exact ⟨resetCtrl_allValuesNull c, resetFields_allValuesNull rest⟩

theorem resetItems_allValuesNull : ∀ its : List Ctrl,
    allValuesNullItems (resetItems its) = true
  | [] => rfl
  | c :: rest => by
      simp only [resetItems, allValuesNullItems, Bool.and_eq_true]
      exact ⟨resetCtrl_allValuesNull c, resetItems_allValuesNull rest⟩

end

mutual

theorem resetCtrl_allUntouched : ∀ c : Ctrl, allUntouched (resetCtrl c) = true
  | .control _ _ => rfl
  | .group id t cs => by
      simp only [resetCtrl, allUntouched, Bool.not_false, Bool.true_and]
      exact resetFields_allUntouched cs
  | .array id t its => by
      simp only [resetCtrl, allUntouched, Bool.not_false, Bool.true_and]
      exact resetItems_allUntouched its

theorem resetFields_allUntouched : ∀ cs : List (String × Ctrl),
    allUntouchedFields (resetFields cs) = true
  | [] => rfl
  | (n, c) :: rest => by
      simp only [resetFields, allUntouchedFields, Bool.and_eq_true]
      exact ⟨resetCtrl_allUntouched c, resetFields_allUntouched rest⟩

theorem resetItems_allUntouched : ∀ its : List Ctrl,
    allUntouchedItems (resetItems its) = true
  | [] => rfl
  | c :: rest => by
      simp only [resetItems, allUntouchedItems, Bool.and_eq_true]
      exact ⟨resetCtrl_allUntouched c, resetItems_allUntouched rest⟩

end

/-! ### Claims -/

/-- C4: for a `text` field with `required = true` and
`config.minLength = 2` (and no other constraints or custom validators),
validating the empty string yields exactly a `required` failure (no
`minlength` failure), and validating any 1-character string yields
exactly a `minlength` failure (no `required` failure). -/
theorem claim_c4 (f : FormField) (regexTest : String → Value → Bool)
    (hreq : f.required = true) (hmin : f.minLength = some 2)
    (hmaxl : f.maxLength = none) (hpat : f.pattern = none)
    (hcv : f.validators = []) :
    runValidators (textInputValidators regexTest f) (.str "")
        = some [("required", Value.bool true)]
    ∧ ∀ s : String, s.length = 1 →
        runValidators (textInputValidators regexTest f) (.str s)
          = some [("minlength", Value.obj
              [("requiredLength", Value.num 2), ("actualLength", Value.num 1)])] := by
  have hv : textInputValidators regexTest f = [requiredValidator, minLengthValidator 2] := by
    simp [textInputValidators, hreq, hmin, hmaxl, hpat, hcv]
  constructor
  · rw [hv]; rfl
  · intro s hs
    rw [hv]
    simp [runValidators, requiredValidator, minLengthValidator,
      isEmptyInputValue, hasValidLength, valueLength, hs, mergeErrors, objSet]

/-- C5: with drag-and-drop enabled, `dropItem` on a 3-element list moving
index 0 to index 2 yields `[item1, item2, item0]` with the same three
node objects; it is a no-op when the indices are equal; and in general,
for an in-bounds source index, it removes the node found at
`previousIndex` and reinserts that same node at `currentIndex`. -/
theorem claim_c5 (f : FormField) (hdd : f.allowDragDrop = true) :
    (∀ a b c : Ctrl, dropItem f [a, b, c] 0 2 = [b, c, a])
    ∧ (∀ (its : List Ctrl) (i : Nat), dropItem f its i i = its)
    ∧ (∀ (its : List Ctrl) (prev cur : Nat) (g : Ctrl), prev ≠ cur →
        its.get? prev = some g →
        dropItem f its prev cur = (its.eraseIdx prev).insertIdx cur g) := by
  refine ⟨?_, ?_, ?_⟩
  · intro a b c
    simp [dropItem, hdd, List.eraseIdx, List.insertIdx]
  · intro its i
    simp [dropItem]
  · intro its prev cur g hne hget
    have hget' : its[prev]? = some g := by
      simpa [List.get?_eq_getElem?] using hget
    simp [dropItem, hdd, hne, hget']

/-- C6: `addItem` on a list already holding `maxItems` items is refused
without an exception (the item list is returned unchanged); below
`maxItems`, with a subform config and a confirmed dialog group, it
appends exactly that one new group node. -/
theorem claim_c6 (f : FormField) (m : Nat) (its : List Ctrl)
    (dialogResult : Option Ctrl) (hmax : f.maxItems = some m) :
    (its.length = m → addItem f (some its) dialogResult = some its)
    ∧ (∀ (sub : FormConfig) (gid : Nat) (gt : Bool) (gcs : List (String × Ctrl)),
        its.length < m → f.subformConfig = some sub →
        dialogResult = some (.group gid gt gcs) →
        addItem f (some its) dialogResult = some (its ++ [Ctrl.group gid gt gcs])
        ∧ (its ++ [Ctrl.group gid gt gcs]).length = its.length + 1) := by
  constructor
  · intro hlen
    simp [addItem, canAddItem, hmax, hlen]
  · intro sub gid gt gcs hlt hsub hdr
    subst hdr
    refine ⟨?_, by simp⟩
    simp [addItem, canAddItem, hmax, hlt, hsub]

/-- Witness for C4 at a concrete `text` field with `required` and
`minLength = 2`, and the concrete 1-character string `"a"`. -/
theorem claim_c4_witness :
    (FormField.mk "firstName" "text" true (some 2) none none [] none none none true).required = true
    ∧ (FormField.mk "firstName" "text" true (some 2) none none [] none none none true).minLength = some 2
    ∧ (FormField.mk "firstName" "text" true (some 2) none none [] none none none true).maxLength = none
    ∧ (FormField.mk "firstName" "text" true (some 2) none none [] none none none true).pattern = none
    ∧ (FormField.mk "firstName" "text" true (some 2) none none [] none none none true).validators = []
    ∧ runValidators
        (textInputValidators (fun _ _ => true)
          (FormField.mk "firstName" "text" true (some 2) none none [] none none none true))
        (.str "") = some [("required", Value.bool true)]
    ∧ ("a".length = 1
       ∧ runValidators
          (textInputValidators (fun _ _ => true)
            (FormField.mk "firstName" "text" true (some 2) none none [] none none none true))
          (.str "a") = some [("minlength", Value.obj
              [("requiredLength", Value.num 2), ("actualLength", Value.num 1)])]) :=
  ⟨rfl, rfl, rfl, rfl, rfl,
   (claim_c4 (FormField.mk "firstName" "text" true (some 2) none none [] none none none true)
     (fun _ _ => true) rfl rfl rfl rfl rfl).1,
   rfl,
   (claim_c4 (FormField.mk "firstName" "text" true (some 2) none none [] none none none true)
     (fun _ _ => true) rfl rfl rfl rfl rfl).2 "a" rfl⟩

/-- Witness for C5 at a concrete subform field with drag-and-drop
enabled and a concrete 3-element list. -/
theorem claim_c5_witness :
    (FormField.mk "items" "subform" false none none none [] none none none true).allowDragDrop = true
    ∧ dropItem (FormField.mk "items" "subform" false none none none [] none none none true)
        [Ctrl.control (Value.num 0) false, Ctrl.control (Value.num 1) false,
         Ctrl.control (Value.num 2) false] 0 2
      = [Ctrl.control (Value.num 1) false, Ctrl.control (Value.num 2) false,
         Ctrl.control (Value.num 0) false]
    ∧ dropItem (FormField.mk "items" "subform" false none none none [] none none none true)
        [Ctrl.control (Value.num 0) false, Ctrl.control (Value.num 1) false,
         Ctrl.control (Value.num 2) false] 1 1
      = [Ctrl.control (Value.num 0) false, Ctrl.control (Value.num 1) false,
         Ctrl.control (Value.num 2) false] :=
  ⟨rfl,
   (claim_c5 (FormField.mk "items" "subform" false none none none [] none none none true) rfl).1 _ _ _,
   (claim_c5 (FormField.mk "items" "subform" false none none none [] none none none true) rfl).2.1 _ 1⟩

/-- Witness for C6 at a concrete subform field with `maxItems = 2`,
once at capacity (2 items: refused) and once below capacity (1 item:
appended). -/
theorem claim_c6_witness :
    (FormField.mk "items" "subform" false none none none []
        (some (FormConfig.mk "Item" [])) none (some 2) true).maxItems = some 2
    ∧ addItem (FormField.mk "items" "subform" false none none none []
          (some (FormConfig.mk "Item" [])) none (some 2) true)
        (some [Ctrl.group 10 false [], Ctrl.group 11 false []])
        (some (Ctrl.group 99 false []))
      = some [Ctrl.group 10 false [], Ctrl.group 11 false []]
    ∧ addItem (FormField.mk "items" "subform" false none none none []
          (some (FormConfig.mk "Item" [])) none (some 2) true)
        (some [Ctrl.group 10 false []])
        (some (Ctrl.group 99 false []))
      = some [Ctrl.group 10 false [], Ctrl.group 99 false []] :=
  ⟨rfl,
   (claim_c6 (FormField.mk "items" "subform" false none none none []
        (some (FormConfig.mk "Item" [])) none (some 2) true) 2
      [Ctrl.group 10 false [], Ctrl.group 11 false []]
      (some (Ctrl.group 99 false [])) rfl).1 rfl,
   ((claim_c6 (FormField.mk "items" "subform" false none none none []
        (some (FormConfig.mk "Item" [])) none (some 2) true) 2
      [Ctrl.group 10 false []]
      (some (Ctrl.group 99 false [])) rfl).2 (FormConfig.mk "Item" []) 99 false []
      (by decide) rfl rfl).1⟩

/-- Counterexample for C8: a checkbox field's registered initial value is
`false` and the built control is seeded with `false`, but `resetForm`
sets the control back to `null`, not to the build-time initial value. -/
theorem claim_c8_counterexample :
    regInitialValue initialFieldRegistryState "checkbox" = Value.bool false
    ∧ (buildForm initialFieldRegistryState
        (.mk "F" [.mk "newsletter" "checkbox" false none none none [] none none none true]) 0).1
      = Ctrl.group 0 false [("newsletter", Ctrl.control (Value.bool false) false)]
    ∧ (resetForm
        ⟨some (Ctrl.group 0 false [("newsletter", Ctrl.control (Value.bool false) false)]),
         [("newsletter", Value.bool true)], [], true, "h"⟩).dynamicForm
      = some (Ctrl.group 0 false [("newsletter", Ctrl.control Value.null false)])
    ∧ Value.null ≠ Value.bool false :=
  ⟨rfl, rfl, rfl, fun h => Value.noConfusion h⟩

/-- C8 (amended): `resetForm` clears the submitted data and the collected
errors, resets the form tree in place — every `FormControl` is set to
`null` (Angular's reset default for controls built without `nonNullable`;
this equals the build-time initial value only when that value is `null`)
and every touched flag is cleared — and does not rebuild: the form node
and all child nodes keep their identities. -/
theorem claim_c8_amended (s : DynFormState) :
    (resetForm s).formData = []
    ∧ (resetForm s).formErrors = []
    ∧ (resetForm s).dynamicForm = s.dynamicForm.map resetCtrl
    ∧ ∀ c : Ctrl,
        ctrlIds (resetCtrl c) = ctrlIds c
        ∧ allValuesNull (resetCtrl c) = true
        ∧ allUntouched (resetCtrl c) = true :=
  ⟨rfl, rfl, rfl, fun c =>
    ⟨resetCtrl_ids c, resetCtrl_allValuesNull c, resetCtrl_allUntouched c⟩⟩

/-- `register` never touches the `initialized` flag. -/
theorem regRegister_initialized (s : FieldRegistryState)
    (r : FieldComponentRegistration) :
    (regRegister s r).initialized = s.initialized := rfl

/-- After any lazily-initializing lookup the flag is set. -/
theorem ensureInit_initialized (s : FieldRegistryState) :
    (ensureInit s).initialized = true := by
  unfold ensureInit
  split
  case isTrue h => exact h
  case isFalse h => rfl

/-- `ensureInitialized` on an initialized registry is the identity. -/
theorem ensureInit_of_initialized (s : FieldRegistryState)
    (h : s.initialized = true) : ensureInit s = s := by
  unfold ensureInit
  simp [h]

/-- The component map produced by the initialization fold is the plain
key-value fold of the built-in config list. -/
theorem foldl_regRegister_componentRegistry (configs : List (String × String)) :
    ∀ s : FieldRegistryState,
      (configs.foldl
        (fun acc cfg =>
          regRegister acc
            ⟨cfg.1, cfg.2, componentGetControlType cfg.2,
             componentGetInitialValue cfg.2⟩) s).componentRegistry =
      configs.foldl (fun m cfg => objSet m cfg.1 cfg.2) s.componentRegistry := by
  induction configs with
  | nil => intro s; rfl
  | cons c rest ih =>
      intro s
      simp only [List.foldl_cons]
      rw [ih]
      rfl

/-- On an uninitialized registry, the first lookup's component map is the
built-in config list folded over the current map. -/
theorem ensureInit_componentRegistry (s : FieldRegistryState)
    (h : s.initialized = false) :
    (ensureInit s).componentRegistry =
      FIELD_COMPONENT_CONFIGS.foldl (fun m cfg => objSet m cfg.1 cfg.2)
        s.componentRegistry := by
  unfold ensureInit
  rw [if_neg (by simp [h])]
  exact foldl_regRegister_componentRegistry FIELD_COMPONENT_CONFIGS s

/-- Folding key-value writes for keys other than `k` does not change the
lookup at `k`. -/
theorem objGet_foldl_objSet_of_not_mem {α : Type} (configs : List (String × α))
    (k : String) (h : ∀ c ∈ configs, c.1 ≠ k) :
    ∀ m : List (String × α),
      objGet (configs.foldl (fun m cfg => objSet m cfg.1 cfg.2) m) k = objGet m k := by
  induction configs with
  | nil => intro m; rfl
  | cons c rest ih =>
      intro m
      simp only [List.foldl_cons]
      rw [ih (fun d hd => h d (by simp [hd]))]
      exact objGet_objSet_ne m c.1 k c.2 (Ne.symm (h c (by simp)))

/-- With pairwise-distinct keys, folding key-value writes makes the
lookup of a written key return its written value. -/
theorem objGet_foldl_objSet_of_mem {α : Type} (configs : List (String × α))
    (k : String) (v : α) (hmem : (k, v) ∈ configs)
    (hnd : (configs.map Prod.fst).Nodup) :
    ∀ m : List (String × α),
      objGet (configs.foldl (fun m cfg => objSet m cfg.1 cfg.2) m) k = some v := by
  induction configs with
  | nil => simp at hmem
  | cons c rest ih =>
      intro m
      simp only [List.map_cons, List.nodup_cons] at hnd
      simp only [List.foldl_cons]
      rcases List.mem_cons.mp hmem with hc | hc
      · subst hc
        rw [objGet_foldl_objSet_of_not_mem rest k
          (fun d hd hdk => hnd.1 (List.mem_map.mpr ⟨d, hd, hdk⟩))]
        exact objGet_objSet_self m k v
      · exact ih hc hnd.2 _

/-- C10: the field-component registry initializes lazily and `register`
does not mark it initialized, so a host registration for a built-in type
made before any lookup is silently overwritten by the built-in entry on
the first lookup — that lookup returns the built-in component, not the
host's — while the same registration made after the first lookup wins. -/
theorem claim_c10 (r : FieldComponentRegistration) (builtin : String)
    (hb : (r.fieldType, builtin) ∈ FIELD_COMPONENT_CONFIGS)
    (hne : r.component ≠ builtin) :
    (regGetS (regRegister initialFieldRegistryState r) r.fieldType).1 = some builtin
    ∧ (regGetS (regRegister initialFieldRegistryState r) r.fieldType).1 ≠ some r.component
    ∧ (regGetS
        (regRegister (regGetS (regRegister initialFieldRegistryState r) r.fieldType).2 r)
        r.fieldType).1 = some r.component := by
  have hnd : (FIELD_COMPONENT_CONFIGS.map Prod.fst).Nodup := by decide
  have h1 : (regGetS (regRegister initialFieldRegistryState r) r.fieldType).1
      = some builtin := by
    show regGet (regRegister initialFieldRegistryState r) r.fieldType = some builtin
    unfold regGet
    rw [ensureInit_componentRegistry _ rfl]
    exact objGet_foldl_objSet_of_mem FIELD_COMPONENT_CONFIGS r.fieldType builtin hb hnd _
  refine ⟨h1, ?_, ?_⟩
  · rw [h1]
    intro h
    exact hne (Option.some.inj h).symm
  · show regGet (regRegister (ensureInit (regRegister initialFieldRegistryState r)) r)
        r.fieldType = some r.component
    unfold regGet
    rw [ensureInit_of_initialized _
      (by rw [regRegister_initialized]; exact ensureInit_initialized _)]
    exact objGet_objSet_self _ _ _

/-- Witness for C10: a host registration of a custom text component made
before any lookup loses to the built-in `TextInputComponent`; repeated
after the first lookup, it wins. -/
theorem claim_c10_witness :
    (("text", "TextInputComponent") ∈ FIELD_COMPONENT_CONFIGS)
    ∧ ("HostTextComponent" ≠ "TextInputComponent")
    ∧ (regGetS (regRegister initialFieldRegistryState
        ⟨"text", "HostTextComponent", ControlType.control, none⟩) "text").1
      = some "TextInputComponent"
    ∧ (regGetS
        (regRegister
          (regGetS (regRegister initialFieldRegistryState
            ⟨"text", "HostTextComponent", ControlType.control, none⟩) "text").2
          ⟨"text", "HostTextComponent", ControlType.control, none⟩) "text").1
      = some "HostTextComponent" := by
  refine ⟨by decide, by decide, ?_, ?_⟩
  · exact (claim_c10 ⟨"text", "HostTextComponent", ControlType.control, none⟩
      "TextInputComponent" (by decide) (by decide)).1
  · exact (claim_c10 ⟨"text", "HostTextComponent", ControlType.control, none⟩
      "TextInputComponent" (by decide) (by decide)).2.2

/-- A build step for an unregistered field type adds nothing. -/
theorem buildFormStep_of_unregistered (reg : FieldRegistryState)
    (acc : List (String × Ctrl) × Nat) (f : FormField)
    (h : regGet reg f.ftype = none) : buildFormStep reg acc f = acc := by
  simp [buildFormStep, h]

/-- A build step for a registered field type writes exactly one control
under the field's name. -/
theorem buildFormStep_of_registered (reg : FieldRegistryState)
    (acc : List (String × Ctrl) × Nat) (f : FormField) (comp : String)
    (h : regGet reg f.ftype = some comp) :
    ∃ c, (buildFormStep reg acc f).1 = objSet acc.1 f.name c := by
  unfold buildFormStep
  rw [h]
  rcases hct : regControlType reg f.ftype with _ | ct
  · exact ⟨_, rfl⟩
  · cases ct <;> exact ⟨_, rfl⟩

/-- The controls object built by the `buildForm` loop is keyed by
exactly the names of the fields whose component resolves, in declared
order (appended after whatever the accumulator already holds). -/
theorem buildForm_keys_go (reg : FieldRegistryState) :
    ∀ (fields : List FormField) (acc : List (String × Ctrl) × Nat),
      (fields.map FormField.name).Nodup →
      (∀ f ∈ fields, ∀ p ∈ acc.1, p.1 ≠ f.name) →
      ((fields.foldl (buildFormStep reg) acc).1).map Prod.fst =
        acc.1.map Prod.fst ++
          (fields.filter (fun f => (regGet reg f.ftype).isSome)).map FormField.name := by
  intro fields
  induction fields with
  | nil => intro acc _ _; simp
  | cons f rest ih =>
      intro acc hnd hdisj
      simp only [List.map_cons, List.nodup_cons] at hnd
      simp only [List.foldl_cons]
      rcases h : regGet reg f.ftype with _ | comp
      · rw [buildFormStep_of_unregistered reg acc f h]
        rw [ih acc hnd.2 (fun g hg => hdisj g (by simp [hg]))]
        simp [List.filter_cons, h]
      · obtain ⟨c, hc⟩ := buildFormStep_of_registered reg acc f comp h
        have hset : objSet acc.1 f.name c = acc.1 ++ [(f.name, c)] :=
          objSet_of_not_mem acc.1 f.name c (fun p hp => hdisj f (by simp) p hp)
        have hdisj' : ∀ g ∈ rest, ∀ p ∈ (buildFormStep reg acc f).1, p.1 ≠ g.name := by
          intro g hg p hp
          rw [hc, hset] at hp
          rcases List.mem_append.mp hp with hp | hp
          · exact hdisj g (by simp [hg]) p hp
          · simp only [List.mem_singleton] at hp
            subst hp
            intro hname
            have hname' : f.name = g.name := hname
            exact hnd.1 (by rw [hname']; exact List.mem_map.mpr ⟨g, hg, rfl⟩)
        rw [ih (buildFormStep reg acc f) hnd.2 hdisj']
        rw [hc, hset]
        simp [List.filter_cons, h]

/-- The `buildForm` loop never writes a key all of whose fields are
unregistered. -/
theorem objGet_buildFold_none (reg : FieldRegistryState) (k : String) :
    ∀ (fields : List FormField) (acc : List (String × Ctrl) × Nat),
      objGet acc.1 k = none →
      (∀ f ∈ fields, f.name = k → regGet reg f.ftype = none) →
      objGet ((fields.foldl (buildFormStep reg) acc).1) k = none := by
  intro fields
  induction fields with
  | nil => intro acc hacc _; exact hacc
  | cons f rest ih =>
      intro acc hacc hun
      simp only [List.foldl_cons]
      apply ih _ ?_ (fun g hg => hun g (by simp [hg]))
      by_cases hk : f.name = k
      · rw [buildFormStep_of_unregistered reg acc f (hun f (by simp) hk)]
        exact hacc
      · rcases h : regGet reg f.ftype with _ | comp
        · rw [buildFormStep_of_unregistered reg acc f h]; exact hacc
        · obtain ⟨c, hc⟩ := buildFormStep_of_registered reg acc f comp h
          rw [hc, objGet_objSet_ne acc.1 f.name k c (Ne.symm hk)]
          exact hacc

/-- C3: for a form configuration with unique field names, `buildForm`
produces exactly one control per field whose type resolves in the
component registry, keyed by the field name, in declared field order;
a field whose type is not registered produces no control; and the build
is a total function (it completes without an exception for every input).
-/
theorem claim_c3 (reg : FieldRegistryState) (cfg : FormConfig) (nid : Nat)
    (hnd : (cfg.fields.map FormField.name).Nodup) :
    (groupControls (buildForm reg cfg nid).1).map Prod.fst =
      (cfg.fields.filter (fun f => (regGet reg f.ftype).isSome)).map FormField.name
    ∧ ∀ f ∈ cfg.fields, regGet reg f.ftype = none →
        objGet (groupControls (buildForm reg cfg nid).1) f.name = none := by
  have hgc : groupControls (buildForm reg cfg nid).1 =
      (cfg.fields.foldl (buildFormStep reg) ([], nid)).1 := rfl
  constructor
  · rw [hgc]
    rw [buildForm_keys_go reg cfg.fields ([], nid) hnd (by intro f _ p hp; simp at hp)]
    rfl
  · intro f hf hun
    rw [hgc]
    apply objGet_buildFold_none reg f.name cfg.fields ([], nid) rfl
    intro g hg hgname
    have : g = f := List.inj_on_of_nodup_map hnd hg hf hgname
    rw [this]
    exact hun

/-- Witness for C3: a three-field configuration with unique names where
the middle field's type is not registered builds controls for exactly the
first and third fields, in order. -/
theorem claim_c3_witness :
    (([FormField.mk "firstName" "text" true (some 2) none none [] none none none true,
       FormField.mk "pet" "petchooser" false none none none [] none none none true,
       FormField.mk "newsletter" "checkbox" false none none none [] none none none true].map
        FormField.name).Nodup)
    ∧ (groupControls (buildForm initialFieldRegistryState
        (.mk "F"
          [FormField.mk "firstName" "text" true (some 2) none none [] none none none true,
           FormField.mk "pet" "petchooser" false none none none [] none none none true,
           FormField.mk "newsletter" "checkbox" false none none none [] none none none true]) 0).1).map
        Prod.fst
      = (([FormField.mk "firstName" "text" true (some 2) none none [] none none none true,
           FormField.mk "pet" "petchooser" false none none none [] none none none true,
           FormField.mk "newsletter" "checkbox" false none none none [] none none none true].filter
            (fun f => (regGet initialFieldRegistryState f.ftype).isSome)).map FormField.name) := by
  refine ⟨?_, ?_⟩
  · decide
  · exact (claim_c3 initialFieldRegistryState
      (.mk "F"
        [FormField.mk "firstName" "text" true (some 2) none none [] none none none true,
         FormField.mk "pet" "petchooser" false none none none [] none none none true,
         FormField.mk "newsletter" "checkbox" false none none none [] none none none true]) 0
      (by decide)).1

/-- C9: during one `setFormValues` apply, any key whose value in the
external values object is absent (undefined) or `null` keeps its control
— and hence its current value — completely unchanged: applying values
never implicitly clears a field the values object does not (non-null)
mention. -/
theorem claim_c9 (reg : FieldRegistryState) (cfg : FormConfig) (form : Ctrl)
    (values : List (String × Value)) (nid : Nat) (k : String)
    (hv : objGet values k = none ∨ objGet values k = some Value.null) :
    getGroupControl ((setFormValues reg cfg form values nid).1) k =
      getGroupControl form k := by
  have h1 : objGet (cfg.fields.foldl (buildFormValuesStep reg values) []) k = none :=
    objGet_buildFormValues_of_null reg values k hv cfg.fields [] rfl
  show getGroupControl
      ((cfg.fields.foldl (applyArrayFieldStep reg values)
        (patchCtrl form (.obj (cfg.fields.foldl (buildFormValuesStep reg values) [])), nid)).1) k
    = getGroupControl form k
  rw [getGroupControl_foldArray_of_null reg values k hv cfg.fields _ nid]
  exact getGroupControl_patchCtrl_of_not_mem form _ k h1

/-- Witness for C9: applying values that mention one field and carry
`null` for another leaves the null-valued field's control untouched. -/
theorem claim_c9_witness :
    (objGet [("firstName", Value.str "x"), ("newsletter", Value.null)] "newsletter"
      = some Value.null)
    ∧ getGroupControl
        ((setFormValues initialFieldRegistryState
          (.mk "F"
            [FormField.mk "firstName" "text" true (some 2) none none [] none none none true,
             FormField.mk "newsletter" "checkbox" false none none none [] none none none true])
          (Ctrl.group 7 false
            [("firstName", Ctrl.control (Value.str "old") false),
             ("newsletter", Ctrl.control (Value.bool true) false)])
          [("firstName", Value.str "x"), ("newsletter", Value.null)] 42).1) "newsletter"
      = getGroupControl
          (Ctrl.group 7 false
            [("firstName", Ctrl.control (Value.str "old") false),
             ("newsletter", Ctrl.control (Value.bool true) false)]) "newsletter" :=
  ⟨rfl,
   claim_c9 initialFieldRegistryState
     (.mk "F"
       [FormField.mk "firstName" "text" true (some 2) none none [] none none none true,
        FormField.mk "newsletter" "checkbox" false none none none [] none none none true])
     (Ctrl.group 7 false
       [("firstName", Ctrl.control (Value.str "old") false),
        ("newsletter", Ctrl.control (Value.bool true) false)])
     [("firstName", Value.str "x"), ("newsletter", Value.null)] 42 "newsletter"
     (Or.inr rfl)⟩

/-- C2: the `formValues` effect applies the external values onto the
tree exactly when values, form and config are all present, the values
record is non-empty, and either the serialized values differ from the
last applied hash (structural comparison, not reference) or the current
build has not had values applied yet (`formValuesApplied = false`, i.e.
the tree was just (re)built); and after a successful apply, re-running
the effect with the same values object performs no apply and leaves the
state untouched, so repeated re-renders with a structurally identical
values object never re-apply. -/
theorem claim_c2 (reg : FieldRegistryState) (cfg : Option FormConfig)
    (values : Option (List (String × Value))) (s : DynFormState) (nid : Nat) :
    ((formValuesEffect reg cfg values s nid).2.2 = true ↔
      ∃ vs form config, values = some vs ∧ s.dynamicForm = some form ∧
        cfg = some config ∧ vs ≠ [] ∧
        (jsonStringify (.obj vs) ≠ s.lastFormValuesHash ∨ s.formValuesApplied = false))
    ∧ ∀ vs s' nid', values = some vs →
        formValuesEffect reg cfg values s nid = (s', nid', true) →
        formValuesEffect reg cfg (some vs) s' nid' = (s', nid', false) := by
  constructor
  · rcases values with _ | vs
    · simp [formValuesEffect]
    rcases hdf : s.dynamicForm with _ | form
    · simp [formValuesEffect, hdf]
    rcases cfg with _ | config
    · simp [formValuesEffect, hdf]
    by_cases hemp : vs.isEmpty
    · have : vs = [] := List.isEmpty_iff.mp hemp
      subst this
      simp [formValuesEffect, hdf]
    · have hvs : vs ≠ [] := fun h => hemp (by simp [h])
      by_cases hcond : jsonStringify (.obj vs) ≠ s.lastFormValuesHash ∨
          s.formValuesApplied = false
      · rw [show formValuesEffect reg (some config) (some vs) s nid =
            ({ s with
                dynamicForm := some (setFormValues reg config form vs nid).1
                formValuesApplied := true
                lastFormValuesHash := jsonStringify (.obj vs) },
              (setFormValues reg config form vs nid).2, true) from by
          simp [formValuesEffect, hdf, if_neg hemp, if_pos hcond]]
        exact ⟨fun _ => ⟨vs, form, config, rfl, rfl, rfl, hvs, hcond⟩, fun _ => rfl⟩
      · rw [show formValuesEffect reg (some config) (some vs) s nid = (s, nid, false) from by
          simp [formValuesEffect, hdf, if_neg hemp, if_neg hcond]]
        refine ⟨fun h => absurd h (by simp), ?_⟩
        rintro ⟨vs', form', config', hv', -, -, -, hcond'⟩
        cases hv'
        exact (hcond hcond').elim
  · intro vs s' nid' hvs heq
    subst hvs
    rcases hdf : s.dynamicForm with _ | form
    · rw [show formValuesEffect reg cfg (some vs) s nid = (s, nid, false) from by
        rcases cfg <;> simp [formValuesEffect, hdf]] at heq
      simp at heq
    rcases cfg with _ | config
    · rw [show formValuesEffect reg none (some vs) s nid = (s, nid, false) from by
        simp [formValuesEffect, hdf]] at heq
      simp at heq
    by_cases hemp : vs.isEmpty
    · rw [show formValuesEffect reg (some config) (some vs) s nid = (s, nid, false) from by
        simp [formValuesEffect, hdf, if_pos hemp]] at heq
      simp at heq
    by_cases hcond : jsonStringify (.obj vs) ≠ s.lastFormValuesHash ∨
        s.formValuesApplied = false
    · rw [show formValuesEffect reg (some config) (some vs) s nid =
          ({ s with
              dynamicForm := some (setFormValues reg config form vs nid).1
              formValuesApplied := true
              lastFormValuesHash := jsonStringify (.obj vs) },
            (setFormValues reg config form vs nid).2, true) from by
        simp [formValuesEffect, hdf, if_neg hemp, if_pos hcond]] at heq
      simp only [Prod.mk.injEq] at heq
      obtain ⟨hs', hnid', -⟩ := heq
      subst hs'
      subst hnid'
      simp [formValuesEffect, if_neg hemp]
    · rw [show formValuesEffect reg (some config) (some vs) s nid = (s, nid, false) from by
        simp [formValuesEffect, hdf, if_neg hemp, if_neg hcond]] at heq
      simp at heq

/-- Witness for C2: on a one-text-field form, the first effect run with
fresh values applies them; re-running the effect with the structurally
identical values object performs no apply and leaves everything
unchanged. -/
theorem claim_c2_witness :
    formValuesEffect initialFieldRegistryState
        (some (.mk "F" [.mk "firstName" "text" true (some 2) none none [] none none none true]))
        (some [("firstName", Value.str "x")])
        ⟨some (.group 0 false [("firstName", .control .null false)]), [], [], false, ""⟩ 42
      = (⟨some (.group 0 false [("firstName", .control (.str "x") false)]), [], [], true,
          "\x7b\"firstName\":\"x\"\x7d"⟩, 42, true)
    ∧ formValuesEffect initialFieldRegistryState
        (some (.mk "F" [.mk "firstName" "text" true (some 2) none none [] none none none true]))
        (some [("firstName", Value.str "x")])
        ⟨some (.group 0 false [("firstName", .control (.str "x") false)]), [], [], true,
          "\x7b\"firstName\":\"x\"\x7d"⟩ 42
      = (⟨some (.group 0 false [("firstName", .control (.str "x") false)]), [], [], true,
          "\x7b\"firstName\":\"x\"\x7d"⟩, 42, false) :=
  ⟨rfl,
   (claim_c2 initialFieldRegistryState
      (some (.mk "F" [.mk "firstName" "text" true (some 2) none none [] none none none true]))
      (some [("firstName", Value.str "x")])
      ⟨some (.group 0 false [("firstName", .control .null false)]), [], [], false, ""⟩ 42).2
     [("firstName", Value.str "x")]
     ⟨some (.group 0 false [("firstName", .control (.str "x") false)]), [], [], true,
       "\x7b\"firstName\":\"x\"\x7d"⟩ 42 rfl rfl⟩

/-- C1: applying an external array onto a form holding a `list`
(`FormArray`) node: (a) if the existing list is non-empty, its length
equals the candidate's, and the serialized contents differ, every
existing item node keeps its identity (ids unchanged, positionally) and
only its field values are patched in place — the array node becomes the
positional patch of the existing items and the fresh-id counter does not
move; (b) if the existing list is empty or the lengths differ, the list
is rebuilt item-by-item from the candidate (candidate elements being
plain records and a sub-form configuration being present), yielding
exactly one freshly built group node per candidate element, each with an
id drawn from the fresh counter and distinct from every existing node's
id. -/
theorem claim_c1 (reg : FieldRegistryState) (cname : String) (f : FormField)
    (sub : FormConfig) (fid aid nid : Nat) (ftch atch : Bool)
    (its : List Ctrl) (cand : List Value)
    (hct : regControlType reg f.ftype = some ControlType.array)
    (hsub : f.subformConfig = some sub)
    (hobj : ∀ v ∈ cand, isPlainRecord v) :
    (its.length = cand.length → its.length ≠ 0 →
      jsonStringify (.arr (ctrlValueItems its)) ≠ jsonStringify (.arr cand) →
      setFormValues reg (.mk cname [f])
          (.group fid ftch [(f.name, .array aid atch its)])
          [(f.name, .arr cand)] nid
        = (Ctrl.group fid ftch
            [(f.name, Ctrl.array aid atch (patchItemsPositional its cand))], nid)
      ∧ ctrlIdsItems (patchItemsPositional its cand) = ctrlIdsItems its
      ∧ (patchItemsPositional its cand).length = its.length)
    ∧ ((its.length = 0 ∨ its.length ≠ cand.length) →
      (∀ j ∈ ctrlIdsItems its, j < nid) →
      setFormValues reg (.mk cname [f])
          (.group fid ftch [(f.name, .array aid atch its)])
          [(f.name, .arr cand)] nid
        = (Ctrl.group fid ftch
            [(f.name, Ctrl.array aid atch (rebuildItems reg f cand nid).1)],
           (rebuildItems reg f cand nid).2)
      ∧ (rebuildItems reg f cand nid).1.length = cand.length
      ∧ ∀ g ∈ (rebuildItems reg f cand nid).1,
          ∃ j cs, g = Ctrl.group j false cs ∧ nid ≤ j ∧ j ∉ ctrlIdsItems its) := by
  have hmap : cand.map mapArrayItem = cand := map_mapArrayItem_of_records cand hobj
  have hpos : patchItems its cand = patchItemsPositional its cand :=
    patchItems_eq_positional_of_records its cand hobj
  have hkey := setFormValues_single_array reg cname f fid aid nid ftch atch its cand hct
  rw [hmap, hpos] at hkey
  constructor
  · intro hlen hne _hdiff
    have hlen1 : (patchItemsPositional its cand).length = its.length :=
      patchItemsPositional_length its cand
    have hrec : reconcileItems reg f (patchItemsPositional its cand) cand nid
        = (patchItemsPositional its cand, nid) := by
      unfold reconcileItems
      rw [if_neg ?hc]
      case hc =>
        rw [hlen1, hlen]
        push_neg
        exact ⟨by rw [← hlen]; exact hne, rfl⟩
      by_cases hd : jsonStringify (.arr (ctrlValueItems (patchItemsPositional its cand)))
          ≠ jsonStringify (.arr cand)
      · rw [if_pos hd, patchItemsPositional_idem]
      · rw [if_neg hd]
    rw [hrec] at hkey
    exact ⟨hkey, patchItemsPositional_ids its cand, hlen1⟩
  · intro hreb hfresh
    have hrec : reconcileItems reg f (patchItemsPositional its cand) cand nid
        = rebuildItems reg f cand nid := by
      unfold reconcileItems
      rw [if_pos (by rw [patchItemsPositional_length]; exact hreb)]
    rw [hrec] at hkey
    obtain ⟨hlenR, _hmono, hmem⟩ := rebuildItems_spec reg f sub hsub cand nid hobj
    refine ⟨hkey, hlenR, ?_⟩
    intro g hg
    obtain ⟨j, cs, hgj, hj⟩ := hmem g hg
    exact ⟨j, cs, hgj, hj,
      fun hmem' => Nat.lt_irrefl j (Nat.lt_of_lt_of_le (hfresh j hmem') hj)⟩

/-- Witness for C1: a two-item list patched in place from an equal-length
candidate with different contents (identities 10 and 11 kept), and the
same list rebuilt from a one-element candidate (one fresh node, id 200).
-/
theorem claim_c1_witness :
    regControlType ⟨[], [("subform", ControlType.array), ("text", ControlType.control)], [], true⟩
        "subform" = some ControlType.array
    ∧ (FormField.mk "items" "subform" false none none none []
        (some (.mk "Item" [.mk "title" "text" false none none none [] none none none true]))
        none none true).subformConfig
      = some (.mk "Item" [.mk "title" "text" false none none none [] none none none true])
    ∧ (∀ v ∈ [Value.obj [("title", Value.str "x")], Value.obj [("title", Value.str "y")]],
        isPlainRecord v)
    ∧ (setFormValues
        ⟨[], [("subform", ControlType.array), ("text", ControlType.control)], [], true⟩
        (.mk "F" [FormField.mk "items" "subform" false none none none []
          (some (.mk "Item" [.mk "title" "text" false none none none [] none none none true]))
          none none true])
        (.group 100 false [("items", .array 50 false
          [Ctrl.group 10 false [("title", Ctrl.control (Value.str "a") false)],
           Ctrl.group 11 false [("title", Ctrl.control (Value.str "b") false)]])])
        [("items", Value.arr [Value.obj [("title", Value.str "x")],
                              Value.obj [("title", Value.str "y")]])] 200
      = (Ctrl.group 100 false [("items", Ctrl.array 50 false
          (patchItemsPositional
            [Ctrl.group 10 false [("title", Ctrl.control (Value.str "a") false)],
             Ctrl.group 11 false [("title", Ctrl.control (Value.str "b") false)]]
            [Value.obj [("title", Value.str "x")], Value.obj [("title", Value.str "y")]]))],
         200)
      ∧ ctrlIdsItems
          (patchItemsPositional
            [Ctrl.group 10 false [("title", Ctrl.control (Value.str "a") false)],
             Ctrl.group 11 false [("title", Ctrl.control (Value.str "b") false)]]
            [Value.obj [("title", Value.str "x")], Value.obj [("title", Value.str "y")]])
        = ctrlIdsItems
            [Ctrl.group 10 false [("title", Ctrl.control (Value.str "a") false)],
             Ctrl.group 11 false [("title", Ctrl.control (Value.str "b") false)]])
    ∧ (setFormValues
        ⟨[], [("subform", ControlType.array), ("text", ControlType.control)], [], true⟩
        (.mk "F" [FormField.mk "items" "subform" false none none none []
          (some (.mk "Item" [.mk "title" "text" false none none none [] none none none true]))
          none none true])
        (.group 100 false [("items", .array 50 false
          [Ctrl.group 10 false [("title", Ctrl.control (Value.str "a") false)],
           Ctrl.group 11 false [("title", Ctrl.control (Value.str "b") false)]])])
        [("items", Value.arr [Value.obj [("title", Value.str "z")]])] 200
      = (Ctrl.group 100 false [("items", Ctrl.array 50 false
          (rebuildItems
            ⟨[], [("subform", ControlType.array), ("text", ControlType.control)], [], true⟩
            (FormField.mk "items" "subform" false none none none []
              (some (.mk "Item" [.mk "title" "text" false none none none [] none none none true]))
              none none true)
            [Value.obj [("title", Value.str "z")]] 200).1)],
         (rebuildItems
            ⟨[], [("subform", ControlType.array), ("text", ControlType.control)], [], true⟩
            (FormField.mk "items" "subform" false none none none []
              (some (.mk "Item" [.mk "title" "text" false none none none [] none none none true]))
              none none true)
            [Value.obj [("title", Value.str "z")]] 200).2)) := by
  refine ⟨rfl, rfl, by decide, ?_, ?_⟩
  · have h := (claim_c1
      ⟨[], [("subform", ControlType.array), ("text", ControlType.control)], [], true⟩
      "F"
      (FormField.mk "items" "subform" false none none none []
        (some (.mk "Item" [.mk "title" "text" false none none none [] none none none true]))
        none none true)
      (.mk "Item" [.mk "title" "text" false none none none [] none none none true])
      100 50 200 false false
      [Ctrl.group 10 false [("title", Ctrl.control (Value.str "a") false)],
       Ctrl.group 11 false [("title", Ctrl.control (Value.str "b") false)]]
      [Value.obj [("title", Value.str "x")], Value.obj [("title", Value.str "y")]]
      rfl rfl (by decide)).1 rfl (by decide) (by decide)
    exact ⟨h.1, h.2.1⟩
  · exact ((claim_c1
      ⟨[], [("subform", ControlType.array), ("text", ControlType.control)], [], true⟩
      "F"
      (FormField.mk "items" "subform" false none none none []
        (some (.mk "Item" [.mk "title" "text" false none none none [] none none none true]))
        none none true)
      (.mk "Item" [.mk "title" "text" false none none none [] none none none true])
      100 50 200 false false
      [Ctrl.group 10 false [("title", Ctrl.control (Value.str "a") false)],
       Ctrl.group 11 false [("title", Ctrl.control (Value.str "b") false)]]
      [Value.obj [("title", Value.str "z")]]
      rfl rfl (by decide)).2 (by decide) (by decide)).1

/-- Lookup hit implies membership (first matching entry). -/
theorem objGet_mem {α : Type} : ∀ (m : List (String × α)) (k : String) (v : α),
    objGet m k = some v → (k, v) ∈ m
  | [], _, _, h => by simp [objGet] at h
  | p :: rest, k, v, h => by
      by_cases hp : p.1 = k
      · simp only [objGet, if_pos hp] at h
        obtain ⟨p1, p2⟩ := p
        simp only at hp
        subst hp
        rw [← Option.some.inj h]
        exact List.mem_cons_self _ _
      · simp only [objGet, if_neg hp] at h
        exact List.mem_cons_of_mem p (objGet_mem rest k v h)

/-- The error-message registry's lookups set the flag. -/
theorem emrEnsureInit_initialized (s : ErrMsgState) :
    (emrEnsureInit s).initialized = true := by
  unfold emrEnsureInit
  split
  case isTrue h => exact h
  case isFalse h => rfl

/-- `ensureInitialized` on an initialized message registry is the
identity. -/
theorem emrEnsureInit_of_initialized (s : ErrMsgState)
    (h : s.initialized = true) : emrEnsureInit s = s := by
  unfold emrEnsureInit
  simp [h]

/-- Committing the lazy initialization twice is the same as once. -/
theorem emrEnsureInit_idem (s : ErrMsgState) :
    emrEnsureInit (emrEnsureInit s) = emrEnsureInit s :=
  emrEnsureInit_of_initialized _ (emrEnsureInit_initialized s)

/-- A registered function returning a non-empty message wins the key's
resolution step. -/
theorem getFieldErrorLoop_cons_registered (s : ErrMsgState)
    (errors : List (String × Value)) (label k : String) (rest : List String)
    (fn : ErrMsgFn)
    (hfn : objGet (emrEnsureInit s).errorMessageMap k = some fn)
    (hne : fn errors label ≠ "") :
    getFieldErrorLoop s errors label (k :: rest) = (fn errors label, emrEnsureInit s) := by
  simp [getFieldErrorLoop, getErrorMessage, hfn, hne]

/-- With no registered function (or one producing the empty string), the
key's own detail resolves the step: a string verbatim, else a record's
`message` property. -/
theorem getFieldErrorLoop_cons_fallback (s : ErrMsgState)
    (errors : List (String × Value)) (label k : String) (rest : List String)
    (hreg : objGet (emrEnsureInit s).errorMessageMap k = none ∨
      (∃ fn, objGet (emrEnsureInit s).errorMessageMap k = some fn ∧ fn errors label = ""))
    (v : Value) (hv : objGet errors k = some v)
    (sv : String) (hsv : fallbackDetail v = some sv) :
    getFieldErrorLoop s errors label (k :: rest) = (sv, emrEnsureInit s) := by
  cases v
  case null => simp [fallbackDetail] at hsv
  case bool b => simp [fallbackDetail] at hsv
  case num n => simp [fallbackDetail] at hsv
  case arr xs => simp [fallbackDetail] at hsv
  case str sv' =>
    have : sv' = sv := by simpa [fallbackDetail] using hsv
    subst this
    rcases hreg with hfn | ⟨fn, hfn, hemp⟩
    · simp [getFieldErrorLoop, getErrorMessage, hfn, hv]
    · simp [getFieldErrorLoop, getErrorMessage, hfn, hv, hemp]
  case obj es =>
    obtain ⟨m, hm, hdisp⟩ : ∃ m, objGet es "message" = some m ∧ jsDisplayString m = sv := by
      simpa [fallbackDetail] using hsv
    rcases hreg with hfn | ⟨fn, hfn, hemp⟩
    · simp [getFieldErrorLoop, getErrorMessage, hfn, hv, hm, hdisp]
    · simp [getFieldErrorLoop, getErrorMessage, hfn, hv, hm, hdisp, hemp]

/-- With no registered function (or one producing the empty string) and
no usable detail, the key is skipped and the next key is tried. -/
theorem getFieldErrorLoop_cons_skip (s : ErrMsgState)
    (errors : List (String × Value)) (label k : String) (rest : List String)
    (hreg : objGet (emrEnsureInit s).errorMessageMap k = none ∨
      (∃ fn, objGet (emrEnsureInit s).errorMessageMap k = some fn ∧ fn errors label = ""))
    (hv : ∀ v, objGet errors k = some v → fallbackDetail v = none) :
    getFieldErrorLoop s errors label (k :: rest) =
      getFieldErrorLoop (emrEnsureInit s) errors label rest := by
  rcases hov : objGet errors k with _ | v
  · rcases hreg with hfn | ⟨fn, hfn, hemp⟩
    · simp [getFieldErrorLoop, getErrorMessage, hfn, hov]
    · simp [getFieldErrorLoop, getErrorMessage, hfn, hov, hemp]
  · have hfb := hv v hov
    cases v
    case str sv' => simp [fallbackDetail] at hfb
    case obj es =>
      have hm : objGet es "message" = none := by
        simpa [fallbackDetail] using hfb
      rcases hreg with hfn | ⟨fn, hfn, hemp⟩
      · simp [getFieldErrorLoop, getErrorMessage, hfn, hov, hm]
      · simp [getFieldErrorLoop, getErrorMessage, hfn, hov, hm, hemp]
    case null =>
      rcases hreg with hfn | ⟨fn, hfn, hemp⟩
      · simp [getFieldErrorLoop, getErrorMessage, hfn, hov]
      · simp [getFieldErrorLoop, getErrorMessage, hfn, hov, hemp]
    case bool b =>
      rcases hreg with hfn | ⟨fn, hfn, hemp⟩
      · simp [getFieldErrorLoop, getErrorMessage, hfn, hov]
      · simp [getFieldErrorLoop, getErrorMessage, hfn, hov, hemp]
    case num n =>
      rcases hreg with hfn | ⟨fn, hfn, hemp⟩
      · simp [getFieldErrorLoop, getErrorMessage, hfn, hov]
      · simp [getFieldErrorLoop, getErrorMessage, hfn, hov, hemp]
    case arr xs =>
      rcases hreg with hfn | ⟨fn, hfn, hemp⟩
      · simp [getFieldErrorLoop, getErrorMessage, hfn, hov]
      · simp [getFieldErrorLoop, getErrorMessage, hfn, hov, hemp]

/-- If every key in the list is unregistered and carries no usable
detail, the resolution loop produces the empty string. -/
theorem getFieldErrorLoop_all_skip (errors : List (String × Value))
    (label : String) :
    ∀ (ks : List String) (s : ErrMsgState),
      (∀ k ∈ ks, objGet (emrEnsureInit s).errorMessageMap k = none ∧
        (∀ v, objGet errors k = some v → fallbackDetail v = none)) →
      (getFieldErrorLoop s errors label ks).1 = "" := by
  intro ks
  induction ks with
  | nil => intro s _; rfl
  | cons k rest ih =>
      intro s h
      rw [getFieldErrorLoop_cons_skip s errors label k rest
        (Or.inl (h k (by simp)).1) (h k (by simp)).2]
      apply ih
      intro k' hk'
      rw [emrEnsureInit_idem]
      exact h k' (by simp [hk'])

/-- C7 (amended): `getFieldError` walks the present failure keys in
record order and resolves per key: a registered message function
producing a non-empty string wins for that key; otherwise that same
key's string detail is used verbatim, else its record detail's `message`
property; a key with neither is skipped and the next key is tried; if no
key yields a message the result is the empty string, and a missing
errors object or an untouched control also yields the empty string. -/
theorem claim_c7_amended (s : ErrMsgState) (errors : List (String × Value))
    (label : String) :
    (∀ k v rest', errors = (k, v) :: rest' →
      (∀ fn, objGet (emrEnsureInit s).errorMessageMap k = some fn →
        fn errors label ≠ "" →
        (getFieldError s (some errors) true label).1 = fn errors label)
      ∧ ((objGet (emrEnsureInit s).errorMessageMap k = none ∨
          (∃ fn, objGet (emrEnsureInit s).errorMessageMap k = some fn ∧
            fn errors label = "")) →
         ∀ sv, fallbackDetail v = some sv →
           (getFieldError s (some errors) true label).1 = sv))
    ∧ (∀ k rest,
        (objGet (emrEnsureInit s).errorMessageMap k = none ∨
         (∃ fn, objGet (emrEnsureInit s).errorMessageMap k = some fn ∧
           fn errors label = "")) →
        (∀ v, objGet errors k = some v → fallbackDetail v = none) →
        getFieldErrorLoop s errors label (k :: rest) =
          getFieldErrorLoop (emrEnsureInit s) errors label rest)
    ∧ ((∀ p ∈ errors, objGet (emrEnsureInit s).errorMessageMap p.1 = none ∧
          fallbackDetail p.2 = none) →
        (getFieldError s (some errors) true label).1 = "")
    ∧ getFieldError s none true label = ("", s)
    ∧ getFieldError s (some errors) false label = ("", s) := by
  refine ⟨?_, ?_, ?_, rfl, rfl⟩
  · intro k v rest' herr
    subst herr
    constructor
    · intro fn hfn hne
      show (getFieldErrorLoop s ((k, v) :: rest') label
        (((k, v) :: rest').map (·.1))).1 = fn ((k, v) :: rest') label
      rw [List.map_cons]
      rw [getFieldErrorLoop_cons_registered s ((k, v) :: rest') label k _ fn hfn hne]
    · intro hreg sv hsv
      show (getFieldErrorLoop s ((k, v) :: rest') label
        (((k, v) :: rest').map (·.1))).1 = sv
      rw [List.map_cons]
      rw [getFieldErrorLoop_cons_fallback s ((k, v) :: rest') label k _ hreg v
        (by simp [objGet]) sv hsv]
  · intro k rest hreg hv
    exact getFieldErrorLoop_cons_skip s errors label k rest hreg hv
  · intro h
    show (getFieldErrorLoop s errors label (errors.map (·.1))).1 = ""
    apply getFieldErrorLoop_all_skip errors label (errors.map (·.1)) s
    intro k hk
    obtain ⟨p, hp, hpk⟩ := List.mem_map.mp hk
    refine ⟨hpk ▸ (h p hp).1, ?_⟩
    intro v hov
    have hmem : (k, v) ∈ errors := objGet_mem errors k v hov
    exact (h (k, v) hmem).2

/-- Counterexample for C7: with the failure record
`[custom ↦ "boom", required ↦ true]`, a message function for `required`
is registered (yielding the non-empty "Email is required"), yet
resolution returns the string detail "boom" of the earlier unregistered
key `custom` — a registered function matching a present key does not win
over an earlier key's fallback. -/
theorem claim_c7_counterexample :
    (getErrorMessage initialErrMsgState "required"
        [("custom", Value.str "boom"), ("required", Value.bool true)] "Email").1
      = some "Email is required"
    ∧ (getFieldError initialErrMsgState
        (some [("custom", Value.str "boom"), ("required", Value.bool true)])
        true "Email").1
      = "boom"
    ∧ "boom" ≠ "Email is required" :=
  ⟨rfl, rfl, by decide⟩

/-- Witness for C7's amended statement at concrete inputs: the
string-detail fallback of the head key `custom` wins over the registered
later key, and a record whose only key is unregistered with no usable
detail yields the empty string. -/
theorem claim_c7_amended_witness :
    ([("custom", Value.str "boom"), ("required", Value.bool true)]
        = ("custom", Value.str "boom") :: [("required", Value.bool true)])
    ∧ (objGet (emrEnsureInit initialErrMsgState).errorMessageMap "custom" = none)
    ∧ fallbackDetail (Value.str "boom") = some "boom"
    ∧ (getFieldError initialErrMsgState
        (some [("custom", Value.str "boom"), ("required", Value.bool true)])
        true "Email").1 = "boom"
    ∧ (getFieldError initialErrMsgState (some [("weird", Value.num 5)])
        true "Email").1 = "" := by
  refine ⟨rfl, rfl, rfl, ?_, ?_⟩
  · exact ((claim_c7_amended initialErrMsgState
      [("custom", Value.str "boom"), ("required", Value.bool true)] "Email").1
      "custom" (Value.str "boom") [("required", Value.bool true)] rfl).2
      (Or.inl rfl) "boom" rfl
  · exact (claim_c7_amended initialErrMsgState [("weird", Value.num 5)] "Email").2.2.1
      (by
        intro p hp
        simp only [List.mem_singleton] at hp
        subst hp
        exact ⟨rfl, rfl⟩)

end DynForms
